import Mathlib

/-!
Shallow embedding of the QP-based whole-body inverse-dynamics controller
from `examples/QPInverseDynamicsForHumanoids/qp_controller.cc`.

Matrices are row-major lists of rows over `ℚ` (the idealization of the
C++ `double`); Eigen block operations become `take` / `drop` / `++` on
these lists.  Quantities that the controller obtains from the external
kinematics/dynamics provider (mass matrix, Jacobians, basis matrices,
wrench maps, ...) are data fields of the embedded input structures, as
the spec treats the provider as an external collaborator.
-/

namespace QPID

abbrev Vec := List ℚ

abbrev Mat := List (List ℚ)

/-- Dot product of two coordinate lists (`zipWith` truncates at the
shorter list, which never happens on well-formed dimensions). -/
def dot (a b : Vec) : ℚ := (List.zipWith (fun x y => x * y) a b).sum

/-- Matrix-vector product: each row dotted with the vector. -/
def matVec (A : Mat) (x : Vec) : Vec := A.map (fun r => dot r x)

def vecAdd (a b : Vec) : Vec := List.zipWith (fun x y => x + y) a b

def vecSub (a b : Vec) : Vec := List.zipWith (fun x y => x - y) a b

def vecNeg (a : Vec) : Vec := a.map (fun x => -x)

def vecScale (c : ℚ) (a : Vec) : Vec := a.map (fun x => c * x)

def matNeg (A : Mat) : Mat := A.map vecNeg

def zeroVec (n : Nat) : Vec := List.replicate n 0

def zeroMat (m n : Nat) : Mat := List.replicate m (zeroVec n)

/-- Identity matrix (`MatrixXd::Identity(n, n)`). -/
def idMat (n : Nat) : Mat :=
  (List.range n).map (fun i => (List.range n).map (fun j => if i = j then (1 : ℚ) else 0))

/-- Constant vector (`VectorXd::Constant(n, c)`). -/
def constVec (n : Nat) (c : ℚ) : Vec := List.replicate n c

/-- Eigen `topRows(k)`. -/
def topRows (k : Nat) (A : Mat) : Mat := A.take k

/-- Eigen `bottomRows(k)`: the last `k` rows. -/
def bottomRows (k : Nat) (A : Mat) : Mat := A.drop (A.length - k)

/-- Eigen `head(k)` of a vector. -/
def vhead (k : Nat) (v : Vec) : Vec := v.take k

/-- Eigen `tail(k)` of a vector: the last `k` entries. -/
def vtail (k : Nat) (v : Vec) : Vec := v.drop (v.length - k)

/-- Eigen `segment(s, l)` of a vector. -/
def seg (v : Vec) (s l : Nat) : Vec := (v.drop s).take l

/-- Horizontal concatenation of two row-aligned blocks: writing block
`A` at column 0 and block `B` right after it into a buffer whose rows
they exactly cover. -/
def hcat (A B : Mat) : Mat := List.zipWith (fun a b => a ++ b) A B

/-- Transpose of a matrix whose (declared) column count is `w`. -/
def transposeW (w : Nat) (A : Mat) : Mat :=
  (List.range w).map (fun j => A.map (fun r => r.getD j 0))

/-- Matrix product where `wB` is the (declared) column count of `B`. -/
def matMul (A B : Mat) (wB : Nat) : Mat :=
  A.map (fun r => (List.range wB).map (fun j => dot r (B.map (fun br => br.getD j 0))))

/-- Cross product of two 3-vectors. -/
def crossV (a b : Vec) : Vec :=
  [a.getD 1 0 * b.getD 2 0 - a.getD 2 0 * b.getD 1 0,
   a.getD 2 0 * b.getD 0 0 - a.getD 0 0 * b.getD 2 0,
   a.getD 0 0 * b.getD 1 0 - a.getD 1 0 * b.getD 0 0]

/-- Eigen `v.isZero(eps)`: every coefficient has magnitude at most `eps`. -/
def vecIsZero (eps : ℚ) (v : Vec) : Bool := v.all (fun x => decide (|x| ≤ eps))

/-- A matrix is `m × n` rectangular. -/
def recte (A : Mat) (m n : Nat) : Prop := A.length = m ∧ ∀ r ∈ A, r.length = n

instance (A : Mat) (m n : Nat) : Decidable (recte A m n) := by
  unfold recte; infer_instance

/-- Modelled from the spec: `EPSILON` is a small positive numeric
tolerance defined in `qp_controller.h` (absent from `src/`); the
assertions compare residuals against it.  Its concrete value is
immaterial to the theorems below. -/
def EPSILON : ℚ := 1 / 100000000

/-- One actuator of the `RigidBodyTree` (effort limits are what the
controller reads). -/
structure Actuator where
  effort_limit_min_ : ℚ
  effort_limit_max_ : ℚ
deriving DecidableEq

/-- The slice of `RigidBodyTree` the controller consumes: velocity
count, actuators, the actuator selection map `B`, total mass and the
spatial gravity vector `a_grav`. -/
structure RigidBodyTree where
  number_of_velocities : Nat
  actuators : List Actuator
  B : Mat
  mass : ℚ
  a_grav : Vec
deriving DecidableEq

/-- One contacting body.  `contact_points` and `num_basis` describe the
topology; the remaining fields are the provider-computed quantities the
controller requests for this contact (`ComputeBasisMatrix`,
`ComputeJacobianAtContactPoints`, `ComputeJacobianDotTimesVAtContactPoints`,
`ComputeWrenchMatrix`, `ComputeContactPointsAndWrenchReferencePoint`),
carried as data since the kinematics engine is an external collaborator. -/
structure ContactInformation where
  body : Nat
  name : String
  contact_points : List Vec
  num_basis : Nat
  basisMatrix : Mat
  jacobian : Mat
  jacobianDotTimesV : Vec
  wrenchMatrix : Mat
  contactPointsWorld : List Vec
  referencePoint : Vec
deriving DecidableEq

def ContactInformation.num_contact_points (c : ContactInformation) : Nat :=
  c.contact_points.length

/-- One tracked task-space body motion. -/
structure DesiredBodyAcceleration where
  body : Nat
  name : String
  acceleration : Vec
  weight : ℚ
deriving DecidableEq

/-- Per-cycle input to the controller. -/
structure QPInput where
  contact_info : List ContactInformation
  desired_body_accelerations : List DesiredBodyAcceleration
  desired_comdd : Vec
  desired_vd : Vec
  w_com : ℚ
  w_vd : ℚ
  w_basis_reg : ℚ
deriving DecidableEq

/-- Modelled from the spec: `QPInput::is_valid` is declared in
`qp_controller.h` (absent from `src/`); the spec's validity precondition
is that the desired-generalized-acceleration regularization target
dimension equals the model's generalized-velocity count. -/
def QPInput.is_valid (input : QPInput) (num_vd : Nat) : Bool :=
  input.desired_vd.length == num_vd

/-- The robot state plus all provider quantities `Control` reads from
the `HumanoidStatus`.  `bodyJ` / `bodyJdv` stand for
`GetTaskSpaceJacobian` / `GetTaskSpaceJacobianDotTimesV` applied to a
body identifier at zero local offset. -/
structure HumanoidStatus where
  robot : RigidBodyTree
  M : Mat
  bias_term : Vec
  J_com : Mat
  Jdot_times_v_com : Vec
  centroidal_momentum_matrix : Mat
  centroidal_momentum_matrix_dot_times_v : Vec
  com : Vec
  bodyJ : Nat → Mat
  bodyJdv : Nat → Vec

/-- Per-contact result block of the output. -/
structure ResolvedContact where
  body : Nat
  basis : Vec
  point_forces : List Vec
  equivalent_wrench : Vec
  reference_point : Vec
  contact_points : List Vec
deriving DecidableEq

structure BodyAcceleration where
  body : Nat
  acceleration : Vec
deriving DecidableEq

/-- Controller output for one cycle. -/
structure QPOutput where
  vd : Vec
  comdd : Vec
  joint_torque : Vec
  resolved_contacts : List ResolvedContact
  body_accelerations : List BodyAcceleration
  costs : List (String × ℚ)
deriving DecidableEq

/-- Modelled from the spec: `QPOutput::is_valid` is declared in
`qp_controller.h` (absent from `src/`); the spec says the fully
populated output must pass a structural-validity check (dimension
agreement with the model), called with the model's velocity count and
actuator count. -/
def QPOutput.is_valid (out : QPOutput) (num_vd num_act : Nat) : Bool :=
  out.vd.length == num_vd && out.joint_torque.length == num_act

/-! ### The `MathematicalProgram` model

The program is the ordered list of constraint/cost declarations made by
`ResizeQP`.  `Add*` appends a record; the handle a call returns is the
record's index in this list, and `UpdateConstraint` rewrites the record
in place at that index.  Each record stores its variable window
`(vstart, vlen)` into the decision vector `[vd; basis]`
(`VariableListToVectorXd`): `vd` occupies `[0, num_vd)` and `basis`
occupies `[num_vd, num_vd + num_basis)`. -/

inductive DeclKind where
  | eqC : DeclKind
  | ineqC : DeclKind
  | cost : DeclKind
deriving DecidableEq

/-- One declared constraint or cost.  For a linear equality `A x = b`
we store `lb = ub = b`; for a quadratic cost `0.5 xᵀ Q x + bᵀ x` we
store `A = Q`, `lb = b`, `ub = []`. -/
structure Decl where
  kind : DeclKind
  A : Mat
  lb : Vec
  ub : Vec
  desc : String
  vstart : Nat
  vlen : Nat
deriving DecidableEq

structure Prog where
  decls : List Decl
deriving DecidableEq

/-- Replace the element at index `i` (out-of-range: unchanged). -/
def modifyAt (l : List Decl) (i : Nat) (f : Decl → Decl) : List Decl :=
  match l, i with
  | [], _ => []
  | a :: t, 0 => f a :: t
  | a :: t, n + 1 => a :: modifyAt t n f

/-- `LinearEqualityConstraint::UpdateConstraint(A, b)` through a handle. -/
def Prog.updateEq (p : Prog) (i : Nat) (A : Mat) (b : Vec) : Prog :=
  ⟨modifyAt p.decls i (fun d => { d with A := A, lb := b, ub := b })⟩

/-- `LinearConstraint::UpdateConstraint(A, lb, ub)` through a handle. -/
def Prog.updateIneq (p : Prog) (i : Nat) (A : Mat) (lb ub : Vec) : Prog :=
  ⟨modifyAt p.decls i (fun d => { d with A := A, lb := lb, ub := ub })⟩

/-- `QuadraticConstraint::UpdateConstraint(Q, b)` through a handle. -/
def Prog.updateCost (p : Prog) (i : Nat) (Q : Mat) (b : Vec) : Prog :=
  ⟨modifyAt p.decls i (fun d => { d with A := Q, lb := b, ub := [] })⟩

def Prog.linear_equality_constraints (p : Prog) : List Decl :=
  p.decls.filter (fun d => d.kind == DeclKind.eqC)

def Prog.linear_constraints (p : Prog) : List Decl :=
  p.decls.filter (fun d => d.kind == DeclKind.ineqC)

def Prog.quadratic_costs (p : Prog) : List Decl :=
  p.decls.filter (fun d => d.kind == DeclKind.cost)

/-- `VariableListToVectorXd` on this record's variable window. -/
def Decl.vars (d : Decl) (solution : Vec) : Vec := seg solution d.vstart d.vlen

/-- `QuadraticConstraint::Eval`: `0.5 xᵀ Q x + bᵀ x`. -/
def Decl.costEval (d : Decl) (x : Vec) : ℚ := 1 / 2 * dot x (matVec d.A x) + dot d.lb x

/-! ### Controller state -/

/-- The controller's cross-cycle mutable state: the topology snapshot,
the program with the handles `ResizeQP` stored, and the scratch buffers
the formulation step overwrites each cycle. -/
structure QPController where
  num_contact_body_ : Nat
  num_vd_ : Nat
  num_basis_ : Nat
  num_point_force_ : Nat
  num_torque_ : Nat
  num_variable_ : Nat
  num_body_acceleration_ : Nat
  prog_ : Prog
  eq_dynamics_ : Nat
  eq_contacts_ : List Nat
  ineq_contact_wrench_ : Nat
  ineq_torque_limit_ : Nat
  cost_comdd_ : Nat
  cost_body_accelerations_ : List Nat
  cost_vd_reg_ : Nat
  cost_basis_reg_ : Nat
  stacked_contact_jacobians_ : Mat
  basis_to_force_matrix_ : Mat
  stacked_contact_jacobians_dot_times_v_ : Vec
  torque_linear_ : Mat
  torque_constant_ : Vec
  dynamics_linear_ : Mat
  dynamics_constant_ : Vec
  JB_ : Mat
  point_forces_ : Vec
  inequality_linear_ : Mat
  inequality_lower_bound_ : Vec
  inequality_upper_bound_ : Vec
  body_J_ : List Mat
  body_Jdv_ : List Vec
deriving DecidableEq

/-! ### `QPController::ResizeQP` -/

def sumBasis (cs : List ContactInformation) : Nat :=
  (cs.map (fun c => c.num_basis)).sum

def sumPointForce (cs : List ContactInformation) : Nat :=
  (cs.map (fun c => c.contact_points.length)).sum

/-- The `if` guard of `ResizeQP`: every freshly computed topology count
equals the stored snapshot. -/
def sameTopology (robot : RigidBodyTree) (all_supports : List ContactInformation)
    (all_body_accelerations : List DesiredBodyAcceleration) (c : QPController) : Prop :=
  all_supports.length = c.num_contact_body_ ∧
  robot.number_of_velocities = c.num_vd_ ∧
  sumBasis all_supports = c.num_basis_ ∧
  sumPointForce all_supports = c.num_point_force_ ∧
  robot.actuators.length = c.num_torque_ ∧
  robot.number_of_velocities + sumBasis all_supports = c.num_variable_ ∧
  all_body_accelerations.length = c.num_body_acceleration_

instance (robot : RigidBodyTree) (s : List ContactInformation)
    (a : List DesiredBodyAcceleration) (c : QPController) :
    Decidable (sameTopology robot s a c) := by
  unfold sameTopology; infer_instance

/-- The rebuild branch of `ResizeQP`: store the new counts, declare the
variables, reallocate the scratch buffers, and declare every constraint
and cost with placeholder coefficients, in the source's insertion
order.  (Eigen `resize` leaves coefficients unspecified;
`SetTempMatricesToZero` — declared in the header, modelled from the
spec's "reset (zero-filled) at the start of each cycle" — zeroes them
before first use, so the fresh buffers are modelled as zero-filled.) -/
def rebuildQP (robot : RigidBodyTree) (all_supports : List ContactInformation)
    (all_body_accelerations : List DesiredBodyAcceleration) (c : QPController) : QPController :=
  let num_contact_body := all_supports.length
  let num_vd := robot.number_of_velocities
  let num_basis := sumBasis all_supports
  let num_point_force := sumPointForce all_supports
  let num_torque := robot.actuators.length
  let num_variable := num_vd + num_basis
  let num_body_acceleration := all_body_accelerations.length
  let decls : List Decl :=
    [⟨DeclKind.eqC, zeroMat 6 num_variable, zeroVec 6, zeroVec 6, "dynamics eq", 0, num_variable⟩]
    ++ all_supports.map (fun ci =>
         ⟨DeclKind.eqC, zeroMat (3 * ci.contact_points.length) num_vd,
          zeroVec (3 * ci.contact_points.length), zeroVec (3 * ci.contact_points.length),
          ci.name ++ " contact eq", 0, num_vd⟩)
    ++ [⟨DeclKind.ineqC, idMat num_basis, zeroVec num_basis, constVec num_basis 1000,
         "contact force basis ineq", num_vd, num_basis⟩,
        ⟨DeclKind.ineqC, zeroMat num_torque num_variable, zeroVec num_torque,
         zeroVec num_torque, "torque limit ineq", 0, num_variable⟩,
        ⟨DeclKind.cost, zeroMat num_vd num_vd, zeroVec num_vd, [], "com cost", 0, num_vd⟩]
    ++ all_body_accelerations.map (fun d =>
         ⟨DeclKind.cost, zeroMat num_vd num_vd, zeroVec num_vd, [],
          d.name ++ " cost", 0, num_vd⟩)
    ++ [⟨DeclKind.cost, zeroMat num_vd num_vd, zeroVec num_vd, [], "vd reg cost", 0, num_vd⟩,
        ⟨DeclKind.cost, idMat num_basis, zeroVec num_basis, [],
         "basis reg cost", num_vd, num_basis⟩]
  { c with
    num_contact_body_ := num_contact_body
    num_vd_ := num_vd
    num_basis_ := num_basis
    num_point_force_ := num_point_force
    num_torque_ := num_torque
    num_variable_ := num_variable
    num_body_acceleration_ := num_body_acceleration
    prog_ := ⟨decls⟩
    eq_dynamics_ := 0
    eq_contacts_ := (List.range num_contact_body).map (fun i => 1 + i)
    ineq_contact_wrench_ := num_contact_body + 1
    ineq_torque_limit_ := num_contact_body + 2
    cost_comdd_ := num_contact_body + 3
    cost_body_accelerations_ := (List.range num_body_acceleration).map
      (fun i => num_contact_body + 4 + i)
    cost_vd_reg_ := num_contact_body + 4 + num_body_acceleration
    cost_basis_reg_ := num_contact_body + 5 + num_body_acceleration
    stacked_contact_jacobians_ := zeroMat (3 * num_point_force) num_vd
    basis_to_force_matrix_ := zeroMat (3 * num_point_force) num_basis
    stacked_contact_jacobians_dot_times_v_ := zeroVec (3 * num_point_force)
    torque_linear_ := zeroMat num_torque num_variable
    dynamics_linear_ := zeroMat 6 num_variable
    body_J_ := List.replicate num_body_acceleration []
    body_Jdv_ := List.replicate num_body_acceleration [] }

/-- `QPController::ResizeQP`: recompute the topology counts; if every
one matches the stored snapshot return the state unchanged, otherwise
rebuild the problem structure. -/
def ResizeQP (robot : RigidBodyTree) (all_supports : List ContactInformation)
    (all_body_accelerations : List DesiredBodyAcceleration) (c : QPController) : QPController :=
  if sameTopology robot all_supports all_body_accelerations c then c
  else rebuildQP robot all_supports all_body_accelerations c

/-! ### `QPController::Control`, formulation step (lines 151-256) -/

def matScale (c : ℚ) (A : Mat) : Mat := A.map (vecScale c)

/-- The contact loop's writes into `basis_to_force_matrix_`: each
contact's basis matrix is placed at the running (row, column) offset of
a zeroed buffer, producing a block-diagonal-by-contact matrix whose
total column count is `totalNb`. -/
def basisBlockRows (totalNb off : Nat) (cs : List ContactInformation) : Mat :=
  match cs with
  | [] => []
  | ci :: rest =>
      ci.basisMatrix.map (fun r =>
        List.replicate off (0 : ℚ) ++ r ++ List.replicate (totalNb - off - ci.num_basis) 0)
      ++ basisBlockRows totalNb (off + ci.num_basis) rest

/-- The contact-constraint update loop (lines 194-201): for contact `i`
with force dimension `3 * point count`, update the handle's equality to
`(stacked Jacobian rows) · vd = -(stacked Jdot v rows)`, advancing the
running row offset. -/
def updateContactEqs (p : Prog) (handles : List Nat) (cs : List ContactInformation)
    (stackedJ : Mat) (stackedJdv : Vec) (rowIdx : Nat) : Prog :=
  match handles, cs with
  | h :: hs, ci :: rest =>
      let force_dim := 3 * ci.contact_points.length
      let p1 := p.updateEq h ((stackedJ.drop rowIdx).take force_dim)
        (vecNeg (seg stackedJdv rowIdx force_dim))
      updateContactEqs p1 hs rest stackedJ stackedJdv (rowIdx + force_dim)
  | _, _ => p

/-- The tracked-body cost loop (lines 238-247): fetch the task-space
Jacobian and its `Jdot v` for each tracked body, update the cost
through its handle, and record the Jacobians for the result phase. -/
def updateBodyCosts (rs : HumanoidStatus) (nvd : Nat) (p : Prog) (handles : List Nat)
    (ds : List DesiredBodyAcceleration) : Prog × List Mat × List Vec :=
  match handles, ds with
  | h :: hs, d :: rest =>
      let J := rs.bodyJ d.body
      let Jdv := rs.bodyJdv d.body
      let p1 := p.updateCost h (matScale d.weight (matMul (transposeW nvd J) J nvd))
        (vecScale d.weight (matVec (transposeW nvd J) (vecSub Jdv d.acceleration)))
      let res := updateBodyCosts rs nvd p1 hs rest
      (res.1, J :: res.2.1, Jdv :: res.2.2)
  | _, _ => (p, [], [])

/-- Lines 151-256 of `Control`: stack the contact Jacobians and basis
matrices, build the torque affine map, and refresh every constraint and
cost coefficient through the stored handles.  `vd` starts at index 0
and `basis` at index `num_vd_` of the decision vector. -/
def formulate (rs : HumanoidStatus) (input : QPInput) (c : QPController) : QPController :=
  let nvd := c.num_vd_
  let nb := c.num_basis_
  let nt := c.num_torque_
  let nvar := c.num_variable_
  let na := rs.robot.actuators.length
  let basis_to_force := basisBlockRows nb 0 input.contact_info
  let stackedJ := (input.contact_info.map (fun ci => ci.jacobian)).flatten
  let stackedJdv := (input.contact_info.map (fun ci => ci.jacobianDotTimesV)).flatten
  let JB := matMul (transposeW nvd stackedJ) basis_to_force nb
  let torque_linear := hcat (bottomRows nt rs.M) (matNeg (bottomRows nt JB))
  let torque_constant := vtail nt rs.bias_term
  let dynamics_linear := hcat (topRows 6 rs.M) (matNeg (topRows 6 JB))
  let dynamics_constant := vecNeg (vhead 6 rs.bias_term)
  let p1 := c.prog_.updateEq c.eq_dynamics_ dynamics_linear dynamics_constant
  let p2 := updateContactEqs p1 c.eq_contacts_ input.contact_info stackedJ stackedJdv 0
  let Blt := transposeW na (bottomRows nt rs.robot.B)
  let inequality_linear := matMul Blt torque_linear nvar
  let projected := matVec Blt torque_constant
  let inequality_lower_bound := List.zipWith
    (fun p a => p + a.effort_limit_min_) (vecNeg projected) rs.robot.actuators
  let inequality_upper_bound := List.zipWith
    (fun p a => p + a.effort_limit_max_) (vecNeg projected) rs.robot.actuators
  let p3 := p2.updateIneq c.ineq_torque_limit_ inequality_linear
    inequality_lower_bound inequality_upper_bound
  let p4 := p3.updateCost c.cost_comdd_
    (matScale input.w_com (matMul (transposeW nvd rs.J_com) rs.J_com nvd))
    (vecScale input.w_com
      (matVec (transposeW nvd rs.J_com) (vecSub rs.Jdot_times_v_com input.desired_comdd)))
  let bres := updateBodyCosts rs nvd p4 c.cost_body_accelerations_
    input.desired_body_accelerations
  let p6 := bres.1.updateCost c.cost_vd_reg_ (matScale input.w_vd (idMat nvd))
    (vecScale input.w_vd (vecNeg input.desired_vd))
  let p7 := p6.updateCost c.cost_basis_reg_ (matScale input.w_basis_reg (idMat nb))
    (zeroVec nb)
  { c with
    prog_ := p7
    stacked_contact_jacobians_ := stackedJ
    basis_to_force_matrix_ := basis_to_force
    stacked_contact_jacobians_dot_times_v_ := stackedJdv
    JB_ := JB
    torque_linear_ := torque_linear
    torque_constant_ := torque_constant
    dynamics_linear_ := dynamics_linear
    dynamics_constant_ := dynamics_constant
    inequality_linear_ := inequality_linear
    inequality_lower_bound_ := inequality_lower_bound
    inequality_upper_bound_ := inequality_upper_bound
    body_J_ := bres.2.1
    body_Jdv_ := bres.2.2 }

/-! ### `QPController::Control`, solve and result phase -/

/-- The external QP solver backend: an availability flag and a solve
operation returning `none` when no solution is found. -/
structure Solver where
  available : Bool
  solve : Prog → Option Vec

/-- The `DRAKE_ASSERT`s at lines 174-175 and 202: the running row and
column offsets of the contact stacking loop must land exactly on the
stored `num_point_force_ * 3` and `num_basis_` counts. -/
def contactStackCheck (input : QPInput) (c : QPController) : Bool :=
  3 * sumPointForce input.contact_info == c.num_point_force_ * 3 &&
  sumBasis input.contact_info == c.num_basis_

/-- The post-solve equality-constraint assertion loop (lines 289-293):
`(A X - lb).isZero(EPSILON)` for every linear equality constraint. -/
def eqChecksPass (p : Prog) (solution : Vec) : Bool :=
  p.linear_equality_constraints.all (fun d =>
    vecIsZero EPSILON (vecSub (matVec d.A (d.vars solution)) d.lb))

/-- The post-solve inequality assertion loop (lines 295-303): every
component of `A X` lies within `[lb - EPSILON, ub + EPSILON]`. -/
def ineqChecksPass (p : Prog) (solution : Vec) : Bool :=
  p.linear_constraints.all (fun d =>
    let X := matVec d.A (d.vars solution)
    (List.range X.length).all (fun i =>
      decide (d.lb.getD i 0 - EPSILON ≤ X.getD i 0) &&
      decide (X.getD i 0 ≤ d.ub.getD i 0 + EPSILON)))

/-- The cost inspection loop (lines 278-287): record each quadratic
cost's description and its value on the cost's variable window. -/
def fillCosts (p : Prog) (solution : Vec) (out : QPOutput) : QPOutput :=
  { out with costs := p.quadratic_costs.map (fun d => (d.desc, d.costEval (d.vars solution))) }

/-- The resolved-contact loop (lines 312-333), carrying the running
basis and point-force offsets. -/
def buildResolved (pointForces : Vec) (basisVal : Vec) (cs : List ContactInformation)
    (bi pfi : Nat) : List ResolvedContact :=
  match cs with
  | [] => []
  | ci :: rest =>
      let wseg := seg pointForces pfi (3 * ci.num_contact_points)
      { body := ci.body
        basis := seg basisVal bi ci.num_basis
        point_forces := (List.range ci.num_contact_points).map
          (fun j => seg pointForces (pfi + 3 * j) 3)
        equivalent_wrench := matVec ci.wrenchMatrix wseg
        reference_point := ci.referencePoint
        contact_points := ci.contactPointsWorld } ::
      buildResolved pointForces basisVal rest (bi + ci.num_basis)
        (pfi + 3 * ci.num_contact_points)

/-- The body-acceleration output loop (lines 339-344). -/
def buildBodyAccels (ds : List DesiredBodyAcceleration) (Js : List Mat) (Jdvs : List Vec)
    (vdVal : Vec) : List BodyAcceleration :=
  match ds, Js, Jdvs with
  | d :: ds1, J :: Js1, Jdv :: Jdvs1 =>
      ⟨d.body, vecAdd (matVec J vdVal) Jdv⟩ :: buildBodyAccels ds1 Js1 Jdvs1 vdVal
  | _, _, _ => []

/-- One step of the net-wrench accumulation (lines 355-361): add the
contact's equivalent wrench and recombine its moment about the CoM:
`net.segment<3>(0) += (ref_point - com) × wrench.segment<3>(3)`. -/
def addContactWrench (com : Vec) (net : Vec) (rc : ResolvedContact) : Vec :=
  let net1 := vecAdd net rc.equivalent_wrench
  let m := crossV (vecSub rc.reference_point com) (seg rc.equivalent_wrench 3 3)
  vecAdd (net1.take 3) m ++ net1.drop 3

/-- The wrench-balance `DRAKE_ASSERT` (lines 349-362):
`(net_wrench - Ld).isZero(EPSILON)` with
`Ld = centroidal momentum matrix · vd + its Jdot v term` and the net
wrench accumulated from gravity and the resolved contacts. -/
def wrenchCheckPass (rs : HumanoidStatus) (out : QPOutput) : Bool :=
  let Ld := vecAdd (matVec rs.centroidal_momentum_matrix out.vd)
    rs.centroidal_momentum_matrix_dot_times_v
  let net := out.resolved_contacts.foldl (addContactWrench rs.com)
    (vecScale rs.robot.mass rs.robot.a_grav)
  vecIsZero EPSILON (vecSub net Ld)

/-- Lines 305-347: parse the solution into the output object. -/
def parseResult (rs : HumanoidStatus) (input : QPInput) (c : QPController) (solution : Vec)
    (out : QPOutput) : QPOutput :=
  let vdVal := seg solution 0 c.num_vd_
  let basisVal := seg solution c.num_vd_ c.num_basis_
  let pointForces := matVec c.basis_to_force_matrix_ basisVal
  { out with
    resolved_contacts := buildResolved pointForces basisVal input.contact_info 0 0
    vd := vdVal
    comdd := vecAdd (matVec rs.J_com vdVal) rs.Jdot_times_v_com
    body_accelerations := buildBodyAccels input.desired_body_accelerations
      c.body_J_ c.body_Jdv_ vdVal
    joint_torque := vecAdd (matVec c.torque_linear_ solution) c.torque_constant_ }

/-- `QPController::Control`.  Returns `Except.error` where a
`DRAKE_ASSERT` would abort, and otherwise the `int` result code
together with the controller state and the (possibly mutated) output
object.  The solver backend is passed explicitly since it is an
external collaborator the function instantiates. -/
def Control (rs : HumanoidStatus) (input : QPInput) (solver : Solver) (output : QPOutput)
    (c : QPController) : Except String (Int × QPController × QPOutput) :=
  if !(input.is_valid rs.robot.number_of_velocities) then
    Except.ok (-1, c, output)
  else
    let c1 := ResizeQP rs.robot input.contact_info input.desired_body_accelerations c
    let c2 := formulate rs input c1
    if !(contactStackCheck input c2) then Except.error "contact stacking assert"
    else if !(solver.available) then
      Except.ok (-1, c2, output)
    else
      match solver.solve c2.prog_ with
      | none => Except.ok (-1, c2, output)
      | some solution =>
          let out1 := fillCosts c2.prog_ solution output
          if !(eqChecksPass c2.prog_ solution) then Except.error "equality assert"
          else if !(ineqChecksPass c2.prog_ solution) then Except.error "inequality assert"
          else
            let pf := matVec c2.basis_to_force_matrix_ (seg solution c2.num_vd_ c2.num_basis_)
            let c3 := { c2 with point_forces_ := pf }
            let out2 := parseResult rs input c3 solution out1
            if !(wrenchCheckPass rs out2) then Except.error "wrench balance assert"
            else if !(out2.is_valid rs.robot.number_of_velocities rs.robot.actuators.length) then
              Except.ok (-1, c3, out2)
            else
              Except.ok (0, c3, out2)

/-- The controller state after the resize and formulation steps of one
cycle (lines 109-256). -/
def cycleCtrl (rs : HumanoidStatus) (input : QPInput) (c : QPController) : QPController :=
  formulate rs input (ResizeQP rs.robot input.contact_info input.desired_body_accelerations c)

/-- The controller state after a cycle whose solve succeeded with
`sol` (the `point_forces_` write at line 310). -/
def solvedCtrl (rs : HumanoidStatus) (input : QPInput) (c : QPController) (sol : Vec) :
    QPController :=
  { cycleCtrl rs input c with
    point_forces_ := matVec (cycleCtrl rs input c).basis_to_force_matrix_
      (seg sol (cycleCtrl rs input c).num_vd_ (cycleCtrl rs input c).num_basis_) }

/-- The output object after a cycle whose solve succeeded with `sol`
(cost fill plus result parse). -/
def solvedOut (rs : HumanoidStatus) (input : QPInput) (c : QPController) (sol : Vec)
    (out : QPOutput) : QPOutput :=
  parseResult rs input (solvedCtrl rs input c sol) sol
    (fillCosts (cycleCtrl rs input c).prog_ sol out)

/-! ### Concrete instances used to witness the theorems -/

/-- A 6-velocity floating-base model with a single actuator driving the
last generalized velocity. -/
def robot0 : RigidBodyTree :=
  { number_of_velocities := 6
    actuators := [⟨-1, 1⟩]
    B := [[0], [0], [0], [0], [0], [1]]
    mass := 1
    a_grav := zeroVec 6 }

/-- A resting state of `robot0`: unit mass matrix, no bias, all
provider quantities zero. -/
def rs0 : HumanoidStatus :=
  { robot := robot0
    M := idMat 6
    bias_term := zeroVec 6
    J_com := zeroMat 3 6
    Jdot_times_v_com := zeroVec 3
    centroidal_momentum_matrix := zeroMat 6 6
    centroidal_momentum_matrix_dot_times_v := zeroVec 6
    com := zeroVec 3
    bodyJ := fun _ => []
    bodyJdv := fun _ => [] }

/-- A contact-free input requesting zero accelerations. -/
def input0 : QPInput :=
  { contact_info := []
    desired_body_accelerations := []
    desired_comdd := zeroVec 3
    desired_vd := zeroVec 6
    w_com := 1
    w_vd := 1
    w_basis_reg := 1 }

/-- An input whose regularization target has the wrong dimension. -/
def inputBad : QPInput := { input0 with desired_vd := [0, 0] }

/-- An available solver that returns the all-zero vector. -/
def solver0 : Solver := { available := true, solve := fun _ => some (zeroVec 6) }

/-- An unavailable solver backend. -/
def solverUnavail : Solver := { available := false, solve := fun _ => none }

/-- An available solver that finds no solution. -/
def solverNoSol : Solver := { available := true, solve := fun _ => none }

/-- An available solver returning a solution vector of the wrong
dimension: the parsed output fails its structural validity check, so a
cycle using it exercises the output-invalid failure path. -/
def solverShort : Solver := { available := true, solve := fun _ => some [] }

/-- An empty previous-cycle output object. -/
def out0 : QPOutput :=
  { vd := [], comdd := [], joint_torque := [], resolved_contacts := []
    body_accelerations := [], costs := [] }

/-- A blank controller (all counts zero, empty program). -/
def qp0 : QPController :=
  { num_contact_body_ := 0, num_vd_ := 0, num_basis_ := 0, num_point_force_ := 0
    num_torque_ := 0, num_variable_ := 0, num_body_acceleration_ := 0
    prog_ := ⟨[]⟩
    eq_dynamics_ := 0, eq_contacts_ := [], ineq_contact_wrench_ := 0
    ineq_torque_limit_ := 0, cost_comdd_ := 0, cost_body_accelerations_ := []
    cost_vd_reg_ := 0, cost_basis_reg_ := 0
    stacked_contact_jacobians_ := [], basis_to_force_matrix_ := []
    stacked_contact_jacobians_dot_times_v_ := []
    torque_linear_ := [], torque_constant_ := [], dynamics_linear_ := []
    dynamics_constant_ := [], JB_ := [], point_forces_ := []
    inequality_linear_ := [], inequality_lower_bound_ := [], inequality_upper_bound_ := []
    body_J_ := [], body_Jdv_ := [] }

/-- The controller state `robot0` / `input0` produce: its topology
snapshot matches the counts derived from `robot0` and `input0`. -/
def qpMatch : QPController := rebuildQP robot0 [] [] qp0

/-- Structural well-formedness of the controller state: the stored
constraint/cost handles point at the slots the rebuild assigned them
and the declaration list has the rebuilt length.  Established by any
rebuild and preserved by the no-op resize branch. -/
def StructWF (c : QPController) : Prop :=
  c.prog_.decls.length = c.num_contact_body_ + c.num_body_acceleration_ + 6 ∧
  c.eq_dynamics_ = 0 ∧
  c.eq_contacts_ = (List.range c.num_contact_body_).map (fun i => 1 + i) ∧
  c.ineq_contact_wrench_ = c.num_contact_body_ + 1 ∧
  c.ineq_torque_limit_ = c.num_contact_body_ + 2 ∧
  c.cost_comdd_ = c.num_contact_body_ + 3 ∧
  c.cost_body_accelerations_ =
    (List.range c.num_body_acceleration_).map (fun i => c.num_contact_body_ + 4 + i) ∧
  c.cost_vd_reg_ = c.num_contact_body_ + 4 + c.num_body_acceleration_ ∧
  c.cost_basis_reg_ = c.num_contact_body_ + 5 + c.num_body_acceleration_

instance (c : QPController) : Decidable (StructWF c) := by
  unfold StructWF; infer_instance

/-- One contact's contribution to the net external wrench, its moment
recombined about the center of mass: the claim-side reading of lines
358-360. -/
def wrenchAboutCom (com : Vec) (rc : ResolvedContact) : Vec :=
  vecAdd (rc.equivalent_wrench.take 3)
    (crossV (vecSub rc.reference_point com) (seg rc.equivalent_wrench 3 3)) ++
  rc.equivalent_wrench.drop 3

/-- The claim-side net external wrench: the gravity wrench plus the sum
of all resolved contact equivalent wrenches with moments recombined
about the center of mass. -/
def netWrenchSpec (rs : HumanoidStatus) (out : QPOutput) : Vec :=
  vecAdd (vecScale rs.robot.mass rs.robot.a_grav)
    ((out.resolved_contacts.map (wrenchAboutCom rs.com)).foldr vecAdd (zeroVec 6))

/-- The controller state a run leaves behind (falling back to the
prior state when the run aborted). -/
def ctrlAfter (r : Except String (Int × QPController × QPOutput)) (c : QPController) :
    QPController :=
  match r with
  | Except.ok (_, c1, _) => c1
  | _ => c

/-- The output object a run leaves behind. -/
def outAfter (r : Except String (Int × QPController × QPOutput)) (o : QPOutput) : QPOutput :=
  match r with
  | Except.ok (_, _, o1) => o1
  | _ => o

/-- The result code of a run, when it returned one. -/
def codeAfter (r : Except String (Int × QPController × QPOutput)) : Option Int :=
  match r with
  | Except.ok (k, _, _) => some k
  | _ => none

/-! ### Basic lemmas about the list linear algebra -/

theorem dot_append (a b c d : Vec) (h : a.length = c.length) :
    dot (a ++ b) (c ++ d) = dot a c + dot b d := by
  induction a generalizing c with
  | nil =>
      cases c with
      | nil => simp [dot]
      | cons x xs => simp at h
  | cons x xs ih =>
      cases c with
      | nil => simp at h
      | cons y ys =>
          simp only [List.length_cons, Nat.add_right_cancel_iff] at h
          have hih := ih ys h
          simp only [List.cons_append, dot, List.zipWith_cons_cons, List.sum_cons] at hih ⊢
          rw [hih]
          ring

theorem matVec_hcat (A B : Mat) (x y : Vec) (hAB : A.length = B.length)
    (hA : ∀ r ∈ A, r.length = x.length) :
    matVec (hcat A B) (x ++ y) = vecAdd (matVec A x) (matVec B y) := by
  induction A generalizing B with
  | nil =>
      cases B with
      | nil => simp [matVec, hcat, vecAdd]
      | cons r rs => simp at hAB
  | cons r rs ih =>
      cases B with
      | nil => simp at hAB
      | cons s ss =>
          simp only [List.length_cons, Nat.add_right_cancel_iff] at hAB
          have hr : r.length = x.length := hA r (List.mem_cons_self r rs)
          have hrest : ∀ t ∈ rs, t.length = x.length := fun t ht => hA t (List.mem_cons_of_mem r ht)
          have hih := ih ss hAB hrest
          simp only [hcat, List.zipWith_cons_cons, matVec, List.map_cons, vecAdd] at hih ⊢
          rw [dot_append r s x y hr, hih]

theorem length_modifyAt (l : List Decl) (i : Nat) (f : Decl → Decl) :
    (modifyAt l i f).length = l.length := by
  induction l generalizing i with
  | nil => rfl
  | cons a t ih =>
      cases i with
      | zero => rfl
      | succ n => simp [modifyAt, ih]

theorem get?_modifyAt_ne (l : List Decl) (i j : Nat) (f : Decl → Decl) (h : i ≠ j) :
    (modifyAt l i f).get? j = l.get? j := by
  induction l generalizing i j with
  | nil => rfl
  | cons a t ih =>
      cases i with
      | zero =>
          cases j with
          | zero => exact absurd rfl h
          | succ m => rfl
      | succ n =>
          cases j with
          | zero => rfl
          | succ m =>
              simp only [modifyAt, List.get?_cons_succ]
              exact ih n m (fun hnm => h (by rw [hnm]))

theorem get?_modifyAt_self (l : List Decl) (i : Nat) (f : Decl → Decl) :
    (modifyAt l i f).get? i = (l.get? i).map f := by
  induction l generalizing i with
  | nil => rfl
  | cons a t ih =>
      cases i with
      | zero => rfl
      | succ n => simpa [modifyAt] using ih n

/-! ### Lemmas about `ResizeQP` and the formulation step -/

/-- After `ResizeQP`, every stored topology count equals the count
computed from the current descriptors — by the guard in the no-op
branch, by assignment in the rebuild branch. -/
theorem resize_counts (robot : RigidBodyTree) (s : List ContactInformation)
    (a : List DesiredBodyAcceleration) (c : QPController) :
    (ResizeQP robot s a c).num_contact_body_ = s.length ∧
    (ResizeQP robot s a c).num_vd_ = robot.number_of_velocities ∧
    (ResizeQP robot s a c).num_basis_ = sumBasis s ∧
    (ResizeQP robot s a c).num_point_force_ = sumPointForce s ∧
    (ResizeQP robot s a c).num_torque_ = robot.actuators.length ∧
    (ResizeQP robot s a c).num_variable_ = robot.number_of_velocities + sumBasis s ∧
    (ResizeQP robot s a c).num_body_acceleration_ = a.length := by
  unfold ResizeQP
  split
  · next h =>
      obtain ⟨h1, h2, h3, h4, h5, h6, h7⟩ := h
      exact ⟨h1.symm, h2.symm, h3.symm, h4.symm, h5.symm, h6.symm, h7.symm⟩
  · exact ⟨rfl, rfl, rfl, rfl, rfl, rfl, rfl⟩

/-- The formulation step does not touch the topology counts. -/
theorem formulate_counts (rs : HumanoidStatus) (input : QPInput) (c : QPController) :
    (formulate rs input c).num_contact_body_ = c.num_contact_body_ ∧
    (formulate rs input c).num_vd_ = c.num_vd_ ∧
    (formulate rs input c).num_basis_ = c.num_basis_ ∧
    (formulate rs input c).num_point_force_ = c.num_point_force_ ∧
    (formulate rs input c).num_torque_ = c.num_torque_ ∧
    (formulate rs input c).num_variable_ = c.num_variable_ ∧
    (formulate rs input c).num_body_acceleration_ = c.num_body_acceleration_ := by
  unfold formulate
  exact ⟨rfl, rfl, rfl, rfl, rfl, rfl, rfl⟩

/-- The `DRAKE_ASSERT`s on the stacking offsets always pass once
`ResizeQP` has synchronized the topology snapshot. -/
theorem stackCheck_holds (rs : HumanoidStatus) (input : QPInput) (c : QPController) :
    contactStackCheck input
      (formulate rs input
        (ResizeQP rs.robot input.contact_info input.desired_body_accelerations c)) = true := by
  have hf := formulate_counts rs input
    (ResizeQP rs.robot input.contact_info input.desired_body_accelerations c)
  have hr := resize_counts rs.robot input.contact_info input.desired_body_accelerations c
  simp only [contactStackCheck, hf.2.2.1, hf.2.2.2.1, hr.2.2.1, hr.2.2.2.1,
    Bool.and_eq_true, beq_iff_eq]
  exact ⟨Nat.mul_comm 3 (sumPointForce input.contact_info), trivial⟩

/-- Exhaustive description of the ways `Control` can return (rather
than abort in an assertion): input rejection, solver unavailable, no
solution found, and the solved cases (output valid or not). -/
theorem control_ok_cases (rs : HumanoidStatus) (input : QPInput) (solver : Solver)
    (out : QPOutput) (c : QPController) (code : Int) (c1 : QPController) (o1 : QPOutput)
    (hok : Control rs input solver out c = Except.ok (code, c1, o1)) :
    (input.is_valid rs.robot.number_of_velocities = false ∧ code = -1 ∧ c1 = c ∧ o1 = out) ∨
    (input.is_valid rs.robot.number_of_velocities = true ∧
      ((solver.available = false ∧ code = -1 ∧ c1 = cycleCtrl rs input c ∧ o1 = out) ∨
       (solver.available = true ∧ solver.solve (cycleCtrl rs input c).prog_ = none ∧
         code = -1 ∧ c1 = cycleCtrl rs input c ∧ o1 = out) ∨
       (∃ sol, solver.available = true ∧ solver.solve (cycleCtrl rs input c).prog_ = some sol ∧
         eqChecksPass (cycleCtrl rs input c).prog_ sol = true ∧
         ineqChecksPass (cycleCtrl rs input c).prog_ sol = true ∧
         wrenchCheckPass rs (solvedOut rs input c sol out) = true ∧
         c1 = solvedCtrl rs input c sol ∧ o1 = solvedOut rs input c sol out ∧
         (code = 0 ∨ code = -1) ∧
         (code = 0 ↔ (solvedOut rs input c sol out).is_valid rs.robot.number_of_velocities
           rs.robot.actuators.length = true)))) := by
  unfold Control at hok
  cases hv : input.is_valid rs.robot.number_of_velocities with
  | false =>
      rw [hv] at hok
      simp only [Bool.not_false, if_true, Except.ok.injEq, Prod.mk.injEq] at hok
      left
      exact ⟨rfl, hok.1.symm, hok.2.1.symm, hok.2.2.symm⟩
  | true =>
      rw [hv] at hok
      simp only [Bool.not_true, Bool.false_eq_true, if_false] at hok
      right
      refine ⟨rfl, ?_⟩
      rw [show formulate rs input
        (ResizeQP rs.robot input.contact_info input.desired_body_accelerations c) =
        cycleCtrl rs input c from rfl] at hok
      have hsc : contactStackCheck input (cycleCtrl rs input c) = true :=
        stackCheck_holds rs input c
      rw [hsc] at hok
      simp only [Bool.not_true, Bool.false_eq_true, if_false] at hok
      cases ha : solver.available with
      | false =>
          rw [ha] at hok
          simp only [Bool.not_false, if_true] at hok
          simp only [Except.ok.injEq, Prod.mk.injEq] at hok
          exact Or.inl ⟨rfl, hok.1.symm, hok.2.1.symm, hok.2.2.symm⟩
      | true =>
          rw [ha] at hok
          simp only [Bool.not_true, Bool.false_eq_true, if_false] at hok
          cases hs : solver.solve (cycleCtrl rs input c).prog_ with
          | none =>
              rw [hs] at hok
              simp only [Except.ok.injEq, Prod.mk.injEq] at hok
              exact Or.inr (Or.inl ⟨rfl, rfl, hok.1.symm, hok.2.1.symm, hok.2.2.symm⟩)
          | some sol =>
              rw [hs] at hok
              simp only [] at hok
              refine Or.inr (Or.inr ⟨sol, rfl, rfl, ?_⟩)
              cases heq : eqChecksPass (cycleCtrl rs input c).prog_ sol with
              | false => rw [heq] at hok; simp at hok
              | true =>
                  rw [heq] at hok
                  simp only [Bool.not_true, Bool.false_eq_true, if_false] at hok
                  cases hineq : ineqChecksPass (cycleCtrl rs input c).prog_ sol with
                  | false => rw [hineq] at hok; simp at hok
                  | true =>
                      rw [hineq] at hok
                      simp only [Bool.not_true, Bool.false_eq_true, if_false] at hok
                      rw [show ({ cycleCtrl rs input c with
                        point_forces_ := matVec (cycleCtrl rs input c).basis_to_force_matrix_
                          (seg sol (cycleCtrl rs input c).num_vd_
                            (cycleCtrl rs input c).num_basis_) } : QPController) =
                        solvedCtrl rs input c sol from rfl] at hok
                      rw [show parseResult rs input (solvedCtrl rs input c sol) sol
                        (fillCosts (cycleCtrl rs input c).prog_ sol out) =
                        solvedOut rs input c sol out from rfl] at hok
                      cases hw : wrenchCheckPass rs (solvedOut rs input c sol out) with
                      | false => rw [hw] at hok; simp at hok
                      | true =>
                          rw [hw] at hok
                          simp only [Bool.not_true, Bool.false_eq_true, if_false] at hok
                          cases hov : (solvedOut rs input c sol out).is_valid
                            rs.robot.number_of_velocities rs.robot.actuators.length with
                          | false =>
                              rw [hov] at hok
                              simp only [Bool.not_false, if_true, Except.ok.injEq,
                                Prod.mk.injEq] at hok
                              refine ⟨rfl, rfl, rfl, hok.2.1.symm, hok.2.2.symm,
                                Or.inr hok.1.symm, ?_⟩
                              rw [← hok.1]
                              simp [hov]
                          | true =>
                              rw [hov] at hok
                              simp only [Bool.not_true, Bool.false_eq_true, if_false,
                                Except.ok.injEq, Prod.mk.injEq] at hok
                              exact ⟨rfl, rfl, rfl, hok.2.1.symm, hok.2.2.symm,
                                Or.inl hok.1.symm, by rw [← hok.1]; simp [hov]⟩

/-- The values the formulation step stores in the scratch buffers, read
off the definition. -/
theorem formulate_fields (rs : HumanoidStatus) (input : QPInput) (c : QPController) :
    (formulate rs input c).stacked_contact_jacobians_ =
      (input.contact_info.map (fun ci => ci.jacobian)).flatten ∧
    (formulate rs input c).basis_to_force_matrix_ =
      basisBlockRows c.num_basis_ 0 input.contact_info ∧
    (formulate rs input c).stacked_contact_jacobians_dot_times_v_ =
      (input.contact_info.map (fun ci => ci.jacobianDotTimesV)).flatten ∧
    (formulate rs input c).JB_ =
      matMul (transposeW c.num_vd_ ((input.contact_info.map (fun ci => ci.jacobian)).flatten))
        (basisBlockRows c.num_basis_ 0 input.contact_info) c.num_basis_ ∧
    (formulate rs input c).torque_linear_ =
      hcat (bottomRows c.num_torque_ rs.M)
        (matNeg (bottomRows c.num_torque_ (formulate rs input c).JB_)) ∧
    (formulate rs input c).torque_constant_ = vtail c.num_torque_ rs.bias_term ∧
    (formulate rs input c).inequality_linear_ =
      matMul (transposeW rs.robot.actuators.length (bottomRows c.num_torque_ rs.robot.B))
        (formulate rs input c).torque_linear_ c.num_variable_ ∧
    (formulate rs input c).inequality_lower_bound_ =
      List.zipWith (fun p a => p + a.effort_limit_min_)
        (vecNeg (matVec (transposeW rs.robot.actuators.length
          (bottomRows c.num_torque_ rs.robot.B)) (formulate rs input c).torque_constant_))
        rs.robot.actuators ∧
    (formulate rs input c).inequality_upper_bound_ =
      List.zipWith (fun p a => p + a.effort_limit_max_)
        (vecNeg (matVec (transposeW rs.robot.actuators.length
          (bottomRows c.num_torque_ rs.robot.B)) (formulate rs input c).torque_constant_))
        rs.robot.actuators := by
  unfold formulate
  exact ⟨rfl, rfl, rfl, rfl, rfl, rfl, rfl, rfl, rfl⟩

/-! ### C2 -/

/-- C2: `ResizeQP` computes the topology counts from the current
contact and tracked-body-motion descriptors; when every count equals
the stored snapshot it returns immediately leaving the controller state
entirely unmodified, and only when some count differs does it rebuild
the problem structure. -/
theorem resize_noop_on_same_topology (robot : RigidBodyTree) (s : List ContactInformation)
    (a : List DesiredBodyAcceleration) (c : QPController) :
    (sameTopology robot s a c → ResizeQP robot s a c = c) ∧
    (¬ sameTopology robot s a c → ResizeQP robot s a c = rebuildQP robot s a c) := by
  constructor
  · intro h
    simp [ResizeQP, h]
  · intro h
    simp [ResizeQP, h]

/-- Witness for C2: a controller whose snapshot matches the counts of
`robot0` with no contacts and no tracked bodies is returned unchanged. -/
theorem resize_noop_on_same_topology_w : ResizeQP robot0 [] [] qpMatch = qpMatch :=
  (resize_noop_on_same_topology robot0 [] [] qpMatch).1 (by decide)

/-! ### C4 -/

/-- C4: an input whose desired-generalized-acceleration regularization
target dimension differs from the model's generalized-velocity count is
rejected with the input-invalid code `-1` before the solver can be
consulted (the result does not depend on the solver) and with the
controller state and the output object returned exactly as they were. -/
theorem control_rejects_invalid_input (rs : HumanoidStatus) (input : QPInput)
    (solver : Solver) (out : QPOutput) (c : QPController)
    (h : input.desired_vd.length ≠ rs.robot.number_of_velocities) :
    Control rs input solver out c = Except.ok (-1, c, out) := by
  have hv : input.is_valid rs.robot.number_of_velocities = false := by
    simp [QPInput.is_valid, h]
  unfold Control
  rw [hv]
  simp

/-- Witness for C4: a 2-dimensional regularization target against the
6-velocity model is rejected untouched. -/
theorem control_rejects_invalid_input_w :
    inputBad.desired_vd.length ≠ robot0.number_of_velocities ∧
    Control rs0 inputBad solver0 out0 qp0 = Except.ok (-1, qp0, out0) :=
  ⟨by decide, control_rejects_invalid_input rs0 inputBad solver0 out0 qp0 (by decide)⟩

/-! ### C9 -/

/-- C9: when the solver backend reports itself unavailable (and the
input passed validation), `Control` returns the failure code `-1` and
the output object it was handed is returned without any modification;
only the controller's internal formulation state has been refreshed. -/
theorem solver_unavailable_leaves_output (rs : HumanoidStatus) (input : QPInput)
    (solver : Solver) (out : QPOutput) (c : QPController)
    (hv : input.is_valid rs.robot.number_of_velocities = true)
    (hna : solver.available = false) :
    Control rs input solver out c = Except.ok (-1, cycleCtrl rs input c, out) := by
  unfold Control
  rw [hv]
  have hsc : contactStackCheck input (cycleCtrl rs input c) = true :=
    stackCheck_holds rs input c
  simp only [Bool.not_true, Bool.false_eq_true, if_false]
  rw [show formulate rs input
    (ResizeQP rs.robot input.contact_info input.desired_body_accelerations c) =
    cycleCtrl rs input c from rfl, hsc, hna]
  simp

/-- Witness for C9: the unavailable backend leaves `out0` untouched. -/
theorem solver_unavailable_leaves_output_w :
    solverUnavail.available = false ∧
    Control rs0 input0 solverUnavail out0 qp0 =
      Except.ok (-1, cycleCtrl rs0 input0 qp0, out0) :=
  ⟨rfl, solver_unavailable_leaves_output rs0 input0 solverUnavail out0 qp0 (by decide) rfl⟩

/-! ### C10 -/

/-- C10: when `Control` fails because the solver is unavailable or no
solution is found, the controller state returned is exactly the state
the resize and formulation steps produced for the current cycle — the
topology counts match the current descriptors and the torque scratch
buffers hold the current-cycle values — and only the output object is
left unmodified. -/
theorem failure_after_formulation_state (rs : HumanoidStatus) (input : QPInput)
    (solver : Solver) (out : QPOutput) (c : QPController)
    (hv : input.is_valid rs.robot.number_of_velocities = true)
    (hfail : solver.available = false ∨ solver.solve (cycleCtrl rs input c).prog_ = none) :
    Control rs input solver out c = Except.ok (-1, cycleCtrl rs input c, out) ∧
    (cycleCtrl rs input c).num_contact_body_ = input.contact_info.length ∧
    (cycleCtrl rs input c).num_vd_ = rs.robot.number_of_velocities ∧
    (cycleCtrl rs input c).num_basis_ = sumBasis input.contact_info ∧
    (cycleCtrl rs input c).num_body_acceleration_ = input.desired_body_accelerations.length ∧
    (cycleCtrl rs input c).torque_linear_ =
      hcat (bottomRows (cycleCtrl rs input c).num_torque_ rs.M)
        (matNeg (bottomRows (cycleCtrl rs input c).num_torque_ (cycleCtrl rs input c).JB_)) ∧
    (cycleCtrl rs input c).torque_constant_ =
      vtail (cycleCtrl rs input c).num_torque_ rs.bias_term := by
  have hr := resize_counts rs.robot input.contact_info input.desired_body_accelerations c
  have hfc := formulate_counts rs input
    (ResizeQP rs.robot input.contact_info input.desired_body_accelerations c)
  have hff := formulate_fields rs input
    (ResizeQP rs.robot input.contact_info input.desired_body_accelerations c)
  refine ⟨?_, ?_, ?_, ?_, ?_, ?_, ?_⟩
  · unfold Control
    rw [hv]
    have hsc : contactStackCheck input (cycleCtrl rs input c) = true :=
      stackCheck_holds rs input c
    simp only [Bool.not_true, Bool.false_eq_true, if_false]
    rw [show formulate rs input
      (ResizeQP rs.robot input.contact_info input.desired_body_accelerations c) =
      cycleCtrl rs input c from rfl, hsc]
    rcases hfail with hna | hns
    · rw [hna]
      simp
    · cases ha : solver.available
      · simp
      · rw [hns]
        simp
  · exact hfc.1.trans hr.1
  · exact hfc.2.1.trans hr.2.1
  · exact hfc.2.2.1.trans hr.2.2.1
  · exact hfc.2.2.2.2.2.2.trans hr.2.2.2.2.2.2
  · rw [show (cycleCtrl rs input c).num_torque_ =
      (ResizeQP rs.robot input.contact_info input.desired_body_accelerations c).num_torque_
      from hfc.2.2.2.2.1]
    exact hff.2.2.2.2.1
  · rw [show (cycleCtrl rs input c).num_torque_ =
      (ResizeQP rs.robot input.contact_info input.desired_body_accelerations c).num_torque_
      from hfc.2.2.2.2.1]
    exact hff.2.2.2.2.2.1

/-- Witness for C10: a no-solution cycle returns the freshly formulated
state with the output untouched. -/
theorem failure_after_formulation_state_w :
    Control rs0 input0 solverNoSol out0 qp0 =
      Except.ok (-1, cycleCtrl rs0 input0 qp0, out0) ∧
    (cycleCtrl rs0 input0 qp0).num_vd_ = rs0.robot.number_of_velocities :=
  ⟨(failure_after_formulation_state rs0 input0 solverNoSol out0 qp0 (by decide)
      (Or.inr rfl)).1,
   (failure_after_formulation_state rs0 input0 solverNoSol out0 qp0 (by decide)
      (Or.inr rfl)).2.2.1⟩

/-! ### C3 -/

/-- C3 is false as stated: the returned code does not let the caller
tell the failure outcomes apart.  An invalid input, an unavailable
solver, a failed solve, and a solved cycle whose assembled output fails
its validity check all produce the identical code `-1`. -/
theorem result_code_not_distinguishing :
    QPInput.is_valid inputBad robot0.number_of_velocities = false ∧
    QPInput.is_valid input0 robot0.number_of_velocities = true ∧
    solverUnavail.available = false ∧
    solverShort.available = true ∧
    solverShort.solve (cycleCtrl rs0 input0 qp0).prog_ = some [] ∧
    QPOutput.is_valid (outAfter (Control rs0 input0 solverShort out0 qp0) out0)
      robot0.number_of_velocities robot0.actuators.length = false ∧
    codeAfter (Control rs0 inputBad solverUnavail out0 qp0) = some (-1) ∧
    codeAfter (Control rs0 input0 solverUnavail out0 qp0) = some (-1) ∧
    codeAfter (Control rs0 input0 solverNoSol out0 qp0) = some (-1) ∧
    codeAfter (Control rs0 input0 solverShort out0 qp0) = some (-1) := by
  refine ⟨by decide, by decide, rfl, rfl, rfl, ?_, ?_, ?_, ?_, ?_⟩
  · with_unfolding_all rfl
  · with_unfolding_all rfl
  · with_unfolding_all rfl
  · with_unfolding_all rfl
  · with_unfolding_all rfl

/-- C3 (amended): `Control` returns a two-valued code, `0` exactly on a
fully successful cycle — valid input, solver available, a solution
found, and the assembled output passing its validity check — and `-1`
on every failure path (input-invalid, solver-unavailable,
no-solution-found, output-invalid); the code distinguishes success from
failure, but not the four failure outcomes from one another. -/
theorem result_code_binary (rs : HumanoidStatus) (input : QPInput) (solver : Solver)
    (out : QPOutput) (c : QPController) (code : Int) (c1 : QPController) (o1 : QPOutput)
    (hok : Control rs input solver out c = Except.ok (code, c1, o1)) :
    (code = 0 ∨ code = -1) ∧
    (code = 0 ↔ (input.is_valid rs.robot.number_of_velocities = true ∧
      solver.available = true ∧
      ∃ sol, solver.solve (cycleCtrl rs input c).prog_ = some sol ∧
        (solvedOut rs input c sol out).is_valid rs.robot.number_of_velocities
          rs.robot.actuators.length = true)) := by
  rcases control_ok_cases rs input solver out c code c1 o1 hok with
    ⟨hv, hc, _, _⟩ | ⟨hv, hcase⟩
  · refine ⟨Or.inr hc, ?_, ?_⟩
    · intro h0
      exact absurd (h0 ▸ hc) (by omega)
    · rintro ⟨hv2, _⟩
      rw [hv] at hv2
      exact absurd hv2 (by simp)
  · rcases hcase with ⟨ha, hc, _, _⟩ | ⟨_, hs, hc, _, _⟩ |
      ⟨sol, ha, hs, _, _, _, _, _, hbin, hiff⟩
    · refine ⟨Or.inr hc, ?_, ?_⟩
      · intro h0
        exact absurd (h0 ▸ hc) (by omega)
      · rintro ⟨_, ha2, _⟩
        rw [ha] at ha2
        exact absurd ha2 (by simp)
    · refine ⟨Or.inr hc, ?_, ?_⟩
      · intro h0
        exact absurd (h0 ▸ hc) (by omega)
      · rintro ⟨_, _, sol2, hs2, _⟩
        rw [hs] at hs2
        exact absurd hs2 (by simp)
    · refine ⟨hbin, ?_, ?_⟩
      · intro h0
        exact ⟨hv, ha, sol, hs, hiff.1 h0⟩
      · rintro ⟨_, _, sol2, hs2, hov2⟩
        rw [hs] at hs2
        obtain rfl : sol = sol2 := Option.some.inj hs2
        exact hiff.2 hov2

/-- Witness for the amended C3: the successful concrete cycle returns
code `0`, and indeed its input is valid, its solver available, a
solution is found, and the assembled output is valid. -/
theorem result_code_binary_w :
    ((0 : Int) = 0 ∨ (0 : Int) = -1) ∧
    ((0 : Int) = 0 ↔ (QPInput.is_valid input0 rs0.robot.number_of_velocities = true ∧
      solver0.available = true ∧
      ∃ sol, solver0.solve (cycleCtrl rs0 input0 qp0).prog_ = some sol ∧
        (solvedOut rs0 input0 qp0 sol out0).is_valid rs0.robot.number_of_velocities
          rs0.robot.actuators.length = true)) :=
  result_code_binary rs0 input0 solver0 out0 qp0 0
    (ctrlAfter (Control rs0 input0 solver0 out0 qp0) qp0)
    (outAfter (Control rs0 input0 solver0 out0 qp0) out0)
    (by with_unfolding_all rfl)

/-! ### C6 -/

/-- C6: when `ResizeQP` rebuilds the problem structure, the constraint
and cost declarations are inserted in exactly the fixed order: dynamics
equality, one contact equality per contact body in descriptor order,
the basis inequality, the torque-limit inequality, the CoM-tracking
cost, one tracking cost per tracked body motion in descriptor order,
the generalized-acceleration regularization cost, and the basis
regularization cost. -/
theorem rebuild_declaration_order (robot : RigidBodyTree) (s : List ContactInformation)
    (a : List DesiredBodyAcceleration) (c : QPController)
    (h : ¬ sameTopology robot s a c) :
    ((ResizeQP robot s a c).prog_.decls).map (fun d => (d.kind, d.desc)) =
      [(DeclKind.eqC, "dynamics eq")] ++
      s.map (fun ci => (DeclKind.eqC, ci.name ++ " contact eq")) ++
      [(DeclKind.ineqC, "contact force basis ineq"),
       (DeclKind.ineqC, "torque limit ineq"),
       (DeclKind.cost, "com cost")] ++
      a.map (fun d => (DeclKind.cost, d.name ++ " cost")) ++
      [(DeclKind.cost, "vd reg cost"), (DeclKind.cost, "basis reg cost")] := by
  simp only [ResizeQP, h, if_false, rebuildQP, List.map_append, List.map_map]
  rfl

/-- Witness for C6: the rebuild for the contact-free, tracked-body-free
topology declares in the stated order. -/
theorem rebuild_declaration_order_w :
    ¬ sameTopology robot0 [] [] qp0 ∧
    ((ResizeQP robot0 [] [] qp0).prog_.decls).map (fun d => (d.kind, d.desc)) =
      [(DeclKind.eqC, "dynamics eq"),
       (DeclKind.ineqC, "contact force basis ineq"),
       (DeclKind.ineqC, "torque limit ineq"),
       (DeclKind.cost, "com cost"),
       (DeclKind.cost, "vd reg cost"),
       (DeclKind.cost, "basis reg cost")] :=
  ⟨by decide, by
    rw [rebuild_declaration_order robot0 [] [] qp0 (by decide)]
    rfl⟩

/-! ### Handle bookkeeping lemmas for the in-place updates -/

theorem updateEq_get?_ne (p : Prog) (i j : Nat) (A : Mat) (b : Vec) (h : i ≠ j) :
    (p.updateEq i A b).decls.get? j = p.decls.get? j :=
  get?_modifyAt_ne p.decls i j _ h

theorem updateIneq_get?_ne (p : Prog) (i j : Nat) (A : Mat) (lb ub : Vec) (h : i ≠ j) :
    (p.updateIneq i A lb ub).decls.get? j = p.decls.get? j :=
  get?_modifyAt_ne p.decls i j _ h

theorem updateCost_get?_ne (p : Prog) (i j : Nat) (Q : Mat) (b : Vec) (h : i ≠ j) :
    (p.updateCost i Q b).decls.get? j = p.decls.get? j :=
  get?_modifyAt_ne p.decls i j _ h

theorem updateIneq_get?_self (p : Prog) (i : Nat) (A : Mat) (lb ub : Vec) :
    (p.updateIneq i A lb ub).decls.get? i =
      (p.decls.get? i).map (fun d => { d with A := A, lb := lb, ub := ub }) :=
  get?_modifyAt_self p.decls i _

theorem updateEq_length (p : Prog) (i : Nat) (A : Mat) (b : Vec) :
    (p.updateEq i A b).decls.length = p.decls.length :=
  length_modifyAt p.decls i _

theorem updateContactEqs_get?_ne (handles : List Nat) (cs : List ContactInformation)
    (p : Prog) (sJ : Mat) (v : Vec) (r j : Nat) (hj : ∀ x ∈ handles, x ≠ j) :
    (updateContactEqs p handles cs sJ v r).decls.get? j = p.decls.get? j := by
  induction handles generalizing p cs r with
  | nil => rfl
  | cons h hs ih =>
      cases cs with
      | nil => rfl
      | cons ci rest =>
          simp only [updateContactEqs]
          rw [ih rest _ _ (fun x hx => hj x (List.mem_cons_of_mem h hx))]
          exact updateEq_get?_ne p h j _ _ (hj h (List.mem_cons_self h hs))

theorem updateContactEqs_length (handles : List Nat) (cs : List ContactInformation)
    (p : Prog) (sJ : Mat) (v : Vec) (r : Nat) :
    (updateContactEqs p handles cs sJ v r).decls.length = p.decls.length := by
  induction handles generalizing p cs r with
  | nil => rfl
  | cons h hs ih =>
      cases cs with
      | nil => rfl
      | cons ci rest =>
          simp only [updateContactEqs]
          rw [ih rest _ _]
          exact updateEq_length p h _ _

theorem updateBodyCosts_fst_get?_ne (rs : HumanoidStatus) (nvd : Nat) (handles : List Nat)
    (ds : List DesiredBodyAcceleration) (p : Prog) (j : Nat)
    (hj : ∀ x ∈ handles, x ≠ j) :
    (updateBodyCosts rs nvd p handles ds).1.decls.get? j = p.decls.get? j := by
  induction handles generalizing p ds with
  | nil => rfl
  | cons h hs ih =>
      cases ds with
      | nil => rfl
      | cons d rest =>
          simp only [updateBodyCosts]
          rw [ih rest _ (fun x hx => hj x (List.mem_cons_of_mem h hx))]
          exact updateCost_get?_ne p h j _ _ (hj h (List.mem_cons_self h hs))

/-- Any rebuild establishes the structural invariant. -/
theorem rebuild_StructWF (robot : RigidBodyTree) (s : List ContactInformation)
    (a : List DesiredBodyAcceleration) (c : QPController) :
    StructWF (rebuildQP robot s a c) := by
  unfold StructWF rebuildQP
  refine ⟨?_, rfl, rfl, rfl, rfl, rfl, rfl, rfl, rfl⟩
  simp
  omega

/-- `ResizeQP` preserves the structural invariant. -/
theorem resize_StructWF (robot : RigidBodyTree) (s : List ContactInformation)
    (a : List DesiredBodyAcceleration) (c : QPController) (h : StructWF c) :
    StructWF (ResizeQP robot s a c) := by
  unfold ResizeQP
  split
  · exact h
  · exact rebuild_StructWF robot s a c

theorem zip_effort_min (proj : Vec) (acts : List Actuator) :
    List.zipWith (fun p a => p + a.effort_limit_min_) (vecNeg proj) acts =
    List.zipWith (fun a p => a.effort_limit_min_ - p) acts proj := by
  induction proj generalizing acts with
  | nil => cases acts <;> rfl
  | cons q qs ih =>
      cases acts with
      | nil => rfl
      | cons a as =>
          simp only [vecNeg, List.map_cons, List.zipWith_cons_cons]
          rw [show vecNeg qs = List.map (fun x => -x) qs from rfl] at ih
          rw [ih as, neg_add_eq_sub]

theorem zip_effort_max (proj : Vec) (acts : List Actuator) :
    List.zipWith (fun p a => p + a.effort_limit_max_) (vecNeg proj) acts =
    List.zipWith (fun a p => a.effort_limit_max_ - p) acts proj := by
  induction proj generalizing acts with
  | nil => cases acts <;> rfl
  | cons q qs ih =>
      cases acts with
      | nil => rfl
      | cons a as =>
          simp only [vecNeg, List.map_cons, List.zipWith_cons_cons]
          rw [show vecNeg qs = List.map (fun x => -x) qs from rfl] at ih
          rw [ih as, neg_add_eq_sub]

/-! ### C5 -/

/-- C5: each cycle, the torque-limit inequality constraint record is
populated with coefficient matrix equal to the actuated-rows-transpose
of the actuator selection map times `torque_linear_`, lower bound
`effort_min` minus the projected `torque_constant_` and upper bound
`effort_max` minus the projected `torque_constant_`, per actuator. -/
theorem torque_limit_constraint_coeffs (rs : HumanoidStatus) (input : QPInput)
    (c : QPController) (hwf : StructWF c) :
    ((cycleCtrl rs input c).prog_.decls.get?
        (cycleCtrl rs input c).ineq_torque_limit_).map Decl.A =
      some (matMul
        (transposeW rs.robot.actuators.length
          (bottomRows rs.robot.actuators.length rs.robot.B))
        (cycleCtrl rs input c).torque_linear_
        (rs.robot.number_of_velocities + sumBasis input.contact_info)) ∧
    ((cycleCtrl rs input c).prog_.decls.get?
        (cycleCtrl rs input c).ineq_torque_limit_).map Decl.lb =
      some (List.zipWith (fun a p => a.effort_limit_min_ - p) rs.robot.actuators
        (matVec (transposeW rs.robot.actuators.length
          (bottomRows rs.robot.actuators.length rs.robot.B))
          (cycleCtrl rs input c).torque_constant_)) ∧
    ((cycleCtrl rs input c).prog_.decls.get?
        (cycleCtrl rs input c).ineq_torque_limit_).map Decl.ub =
      some (List.zipWith (fun a p => a.effort_limit_max_ - p) rs.robot.actuators
        (matVec (transposeW rs.robot.actuators.length
          (bottomRows rs.robot.actuators.length rs.robot.B))
          (cycleCtrl rs input c).torque_constant_)) := by
  have hwf1 := resize_StructWF rs.robot input.contact_info input.desired_body_accelerations
    c hwf
  have hr := resize_counts rs.robot input.contact_info input.desired_body_accelerations c
  obtain ⟨hL, hd, hcs, hcw, ht, hcm, hcb, hv, hb⟩ := hwf1
  have hnt := hr.2.2.2.2.1
  have hnvar := hr.2.2.2.2.2.1
  have hhandle : (cycleCtrl rs input c).ineq_torque_limit_ =
      (ResizeQP rs.robot input.contact_info input.desired_body_accelerations
        c).ineq_torque_limit_ := rfl
  have key : ((cycleCtrl rs input c).prog_.decls.get?
      (cycleCtrl rs input c).ineq_torque_limit_) =
      ((ResizeQP rs.robot input.contact_info input.desired_body_accelerations
          c).prog_.decls.get?
        (ResizeQP rs.robot input.contact_info input.desired_body_accelerations
          c).ineq_torque_limit_).map
        (fun d => { d with
          A := (cycleCtrl rs input c).inequality_linear_,
          lb := (cycleCtrl rs input c).inequality_lower_bound_,
          ub := (cycleCtrl rs input c).inequality_upper_bound_ }) := by
    rw [hhandle]
    simp only [cycleCtrl, formulate]
    rw [updateCost_get?_ne _ _ _ _ _ (by rw [hb, ht]; omega)]
    rw [updateCost_get?_ne _ _ _ _ _ (by rw [hv, ht]; omega)]
    rw [updateBodyCosts_fst_get?_ne _ _ _ _ _ _ (by
      rw [hcb, ht]
      intro x hx
      simp only [List.mem_map, List.mem_range] at hx
      obtain ⟨i, _, rfl⟩ := hx
      omega)]
    rw [updateCost_get?_ne _ _ _ _ _ (by rw [hcm, ht]; omega)]
    rw [updateIneq_get?_self]
    rw [updateContactEqs_get?_ne _ _ _ _ _ _ _ (by
      rw [hcs, ht]
      intro x hx
      simp only [List.mem_map, List.mem_range] at hx
      obtain ⟨i, hi, rfl⟩ := hx
      omega)]
    rw [updateEq_get?_ne _ _ _ _ _ (by rw [hd, ht]; omega)]
  rw [key, ht]
  cases hd0 : (ResizeQP rs.robot input.contact_info input.desired_body_accelerations
      c).prog_.decls.get?
      ((ResizeQP rs.robot input.contact_info input.desired_body_accelerations
        c).num_contact_body_ + 2) with
  | none =>
      rw [List.get?_eq_none] at hd0
      rw [hL] at hd0
      omega
  | some d0 =>
      simp only [Option.map_some']
      have hff := formulate_fields rs input
        (ResizeQP rs.robot input.contact_info input.desired_body_accelerations c)
      have hA : (cycleCtrl rs input c).inequality_linear_ =
          matMul (transposeW rs.robot.actuators.length
            (bottomRows rs.robot.actuators.length rs.robot.B))
            (cycleCtrl rs input c).torque_linear_
            (rs.robot.number_of_velocities + sumBasis input.contact_info) := by
        rw [show (cycleCtrl rs input c).inequality_linear_ =
          (formulate rs input (ResizeQP rs.robot input.contact_info
            input.desired_body_accelerations c)).inequality_linear_ from rfl]
        rw [hff.2.2.2.2.2.2.1, hnt, hnvar]
        rfl
      have hLB : (cycleCtrl rs input c).inequality_lower_bound_ =
          List.zipWith (fun a p => a.effort_limit_min_ - p) rs.robot.actuators
            (matVec (transposeW rs.robot.actuators.length
              (bottomRows rs.robot.actuators.length rs.robot.B))
              (cycleCtrl rs input c).torque_constant_) := by
        rw [show (cycleCtrl rs input c).inequality_lower_bound_ =
          (formulate rs input (ResizeQP rs.robot input.contact_info
            input.desired_body_accelerations c)).inequality_lower_bound_ from rfl]
        rw [hff.2.2.2.2.2.2.2.1, hnt, zip_effort_min]
        rfl
      have hUB : (cycleCtrl rs input c).inequality_upper_bound_ =
          List.zipWith (fun a p => a.effort_limit_max_ - p) rs.robot.actuators
            (matVec (transposeW rs.robot.actuators.length
              (bottomRows rs.robot.actuators.length rs.robot.B))
              (cycleCtrl rs input c).torque_constant_) := by
        rw [show (cycleCtrl rs input c).inequality_upper_bound_ =
          (formulate rs input (ResizeQP rs.robot input.contact_info
            input.desired_body_accelerations c)).inequality_upper_bound_ from rfl]
        rw [hff.2.2.2.2.2.2.2.2, hnt, zip_effort_max]
        rfl
      exact ⟨by rw [← hA], by rw [← hLB], by rw [← hUB]⟩

/-! ### C1 -/

theorem length_transposeW (w : Nat) (A : Mat) : (transposeW w A).length = w := by
  simp [transposeW]

theorem length_matMul (A B : Mat) (w : Nat) : (matMul A B w).length = A.length := by
  simp [matMul]

theorem length_matNeg (A : Mat) : (matNeg A).length = A.length := by
  simp [matNeg]

theorem length_bottomRows (k : Nat) (A : Mat) (h : k ≤ A.length) :
    (bottomRows k A).length = k := by
  simp only [bottomRows, List.length_drop]
  omega

theorem mem_bottomRows (k : Nat) (A : Mat) (r : List ℚ) (h : r ∈ bottomRows k A) : r ∈ A :=
  List.drop_subset _ _ h

/-- C1: on a successful cycle the joint-torque vector written to the
output equals `torque_linear_` times the solver's solution plus
`torque_constant_`, where `torque_linear_`'s `vd`-block is the lower
(actuated) rows of the mass matrix, its basis-block is the negated
lower rows of the stacked-contact-Jacobian-transpose-times-basis
matrix, and `torque_constant_` is the lower rows of the bias term; the
affine identity decomposes blockwise for any solution vector
`x ++ y`, not only the optimal one. -/
theorem control_torque_affine (rs : HumanoidStatus) (input : QPInput) (solver : Solver)
    (out : QPOutput) (c : QPController) (sol x y : Vec) (c1 : QPController) (o1 : QPOutput)
    (hok : Control rs input solver out c = Except.ok (0, c1, o1))
    (hsol : solver.solve (cycleCtrl rs input c).prog_ = some sol)
    (hM1 : rs.M.length = rs.robot.number_of_velocities)
    (hM2 : ∀ r ∈ rs.M, r.length = rs.robot.number_of_velocities)
    (hnt : rs.robot.actuators.length ≤ rs.robot.number_of_velocities)
    (hx : x.length = rs.robot.number_of_velocities) :
    o1.joint_torque = vecAdd (matVec c1.torque_linear_ sol) c1.torque_constant_ ∧
    c1.torque_linear_ =
      hcat (bottomRows rs.robot.actuators.length rs.M)
        (matNeg (bottomRows rs.robot.actuators.length c1.JB_)) ∧
    c1.JB_ =
      matMul (transposeW rs.robot.number_of_velocities c1.stacked_contact_jacobians_)
        c1.basis_to_force_matrix_ (sumBasis input.contact_info) ∧
    c1.torque_constant_ = vtail rs.robot.actuators.length rs.bias_term ∧
    matVec c1.torque_linear_ (x ++ y) =
      vecAdd (matVec (bottomRows rs.robot.actuators.length rs.M) x)
        (matVec (matNeg (bottomRows rs.robot.actuators.length c1.JB_)) y) := by
  have hr := resize_counts rs.robot input.contact_info input.desired_body_accelerations c
  have hff := formulate_fields rs input
    (ResizeQP rs.robot input.contact_info input.desired_body_accelerations c)
  rcases control_ok_cases rs input solver out c 0 c1 o1 hok with
    ⟨_, h0, _, _⟩ | ⟨hv, hcase⟩
  · exact absurd h0 (by omega)
  rcases hcase with ⟨_, h0, _, _⟩ | ⟨_, _, h0, _, _⟩ |
    ⟨sol', _, hs, _, _, _, hc1, ho1, _, _⟩
  · exact absurd h0 (by omega)
  · exact absurd h0 (by omega)
  rw [hsol] at hs
  obtain rfl : sol = sol' := Option.some.inj hs
  have htl : c1.torque_linear_ =
      hcat (bottomRows rs.robot.actuators.length rs.M)
        (matNeg (bottomRows rs.robot.actuators.length c1.JB_)) := by
    rw [hc1]
    rw [show (solvedCtrl rs input c sol).torque_linear_ =
      (formulate rs input (ResizeQP rs.robot input.contact_info
        input.desired_body_accelerations c)).torque_linear_ from rfl]
    rw [show (solvedCtrl rs input c sol).JB_ =
      (formulate rs input (ResizeQP rs.robot input.contact_info
        input.desired_body_accelerations c)).JB_ from rfl]
    rw [hff.2.2.2.2.1, hr.2.2.2.2.1]
  have hJB : c1.JB_ =
      matMul (transposeW rs.robot.number_of_velocities c1.stacked_contact_jacobians_)
        c1.basis_to_force_matrix_ (sumBasis input.contact_info) := by
    rw [hc1]
    rw [show (solvedCtrl rs input c sol).JB_ =
      (formulate rs input (ResizeQP rs.robot input.contact_info
        input.desired_body_accelerations c)).JB_ from rfl]
    rw [show (solvedCtrl rs input c sol).stacked_contact_jacobians_ =
      (formulate rs input (ResizeQP rs.robot input.contact_info
        input.desired_body_accelerations c)).stacked_contact_jacobians_ from rfl]
    rw [show (solvedCtrl rs input c sol).basis_to_force_matrix_ =
      (formulate rs input (ResizeQP rs.robot input.contact_info
        input.desired_body_accelerations c)).basis_to_force_matrix_ from rfl]
    rw [hff.2.2.2.1, hff.1, hff.2.1, hr.2.1, hr.2.2.1]
  have htc : c1.torque_constant_ = vtail rs.robot.actuators.length rs.bias_term := by
    rw [hc1]
    rw [show (solvedCtrl rs input c sol).torque_constant_ =
      (formulate rs input (ResizeQP rs.robot input.contact_info
        input.desired_body_accelerations c)).torque_constant_ from rfl]
    rw [hff.2.2.2.2.2.1, hr.2.2.2.2.1]
  have hJBlen : c1.JB_.length = rs.robot.number_of_velocities := by
    rw [hJB, length_matMul, length_transposeW]
  refine ⟨?_, htl, hJB, htc, ?_⟩
  · rw [ho1, hc1]
    rfl
  · rw [htl]
    rw [matVec_hcat]
    · rw [length_bottomRows rs.robot.actuators.length rs.M (hM1 ▸ hnt),
        length_matNeg, length_bottomRows rs.robot.actuators.length c1.JB_ (hJBlen ▸ hnt)]
    · intro r hr1
      rw [hM2 r (mem_bottomRows rs.robot.actuators.length rs.M r hr1), hx]

/-- Witness for C1: the concrete successful cycle's output torque is
the affine image of the solution, and the affine map splits blockwise
on the decision vector `[1, ..., 1] ++ []`. -/
theorem control_torque_affine_w :
    (outAfter (Control rs0 input0 solver0 out0 qp0) out0).joint_torque =
      vecAdd (matVec (ctrlAfter (Control rs0 input0 solver0 out0 qp0) qp0).torque_linear_
        (zeroVec 6)) (ctrlAfter (Control rs0 input0 solver0 out0 qp0) qp0).torque_constant_ ∧
    matVec (ctrlAfter (Control rs0 input0 solver0 out0 qp0) qp0).torque_linear_
        ([1, 1, 1, 1, 1, 1] ++ []) =
      vecAdd (matVec (bottomRows rs0.robot.actuators.length rs0.M) [1, 1, 1, 1, 1, 1])
        (matVec (matNeg (bottomRows rs0.robot.actuators.length
          (ctrlAfter (Control rs0 input0 solver0 out0 qp0) qp0).JB_)) []) :=
  ⟨(control_torque_affine rs0 input0 solver0 out0 qp0 (zeroVec 6) [1, 1, 1, 1, 1, 1] []
      (ctrlAfter (Control rs0 input0 solver0 out0 qp0) qp0)
      (outAfter (Control rs0 input0 solver0 out0 qp0) out0)
      (by with_unfolding_all rfl) rfl (by decide) (by decide) (by decide) (by decide)).1,
   (control_torque_affine rs0 input0 solver0 out0 qp0 (zeroVec 6) [1, 1, 1, 1, 1, 1] []
      (ctrlAfter (Control rs0 input0 solver0 out0 qp0) qp0)
      (outAfter (Control rs0 input0 solver0 out0 qp0) out0)
      (by with_unfolding_all rfl) rfl (by decide) (by decide) (by decide)
      (by decide)).2.2.2.2⟩

/-- Witness for C5: the torque-limit record of the concrete cycle holds
the projected coefficients. -/
theorem torque_limit_constraint_coeffs_w :
    ((cycleCtrl rs0 input0 qpMatch).prog_.decls.get?
        (cycleCtrl rs0 input0 qpMatch).ineq_torque_limit_).map Decl.A =
      some (matMul
        (transposeW rs0.robot.actuators.length
          (bottomRows rs0.robot.actuators.length rs0.robot.B))
        (cycleCtrl rs0 input0 qpMatch).torque_linear_
        (rs0.robot.number_of_velocities + sumBasis input0.contact_info)) ∧
    ((cycleCtrl rs0 input0 qpMatch).prog_.decls.get?
        (cycleCtrl rs0 input0 qpMatch).ineq_torque_limit_).map Decl.lb =
      some (List.zipWith (fun a p => a.effort_limit_min_ - p) rs0.robot.actuators
        (matVec (transposeW rs0.robot.actuators.length
          (bottomRows rs0.robot.actuators.length rs0.robot.B))
          (cycleCtrl rs0 input0 qpMatch).torque_constant_)) ∧
    ((cycleCtrl rs0 input0 qpMatch).prog_.decls.get?
        (cycleCtrl rs0 input0 qpMatch).ineq_torque_limit_).map Decl.ub =
      some (List.zipWith (fun a p => a.effort_limit_max_ - p) rs0.robot.actuators
        (matVec (transposeW rs0.robot.actuators.length
          (bottomRows rs0.robot.actuators.length rs0.robot.B))
          (cycleCtrl rs0 input0 qpMatch).torque_constant_)) :=
  torque_limit_constraint_coeffs rs0 input0 qpMatch (by decide)

/-! ### C8 -/

/-- C8: on every successful solve, every declared linear equality
constraint has residual within `EPSILON` of zero at the returned
solution, and every declared linear inequality constraint evaluates
within its declared bounds extended by `EPSILON`. -/
theorem constraint_satisfaction_on_success (rs : HumanoidStatus) (input : QPInput)
    (solver : Solver) (out : QPOutput) (c : QPController) (sol : Vec)
    (c1 : QPController) (o1 : QPOutput)
    (hok : Control rs input solver out c = Except.ok (0, c1, o1))
    (hsol : solver.solve (cycleCtrl rs input c).prog_ = some sol) :
    (∀ d ∈ c1.prog_.decls, d.kind = DeclKind.eqC →
      ∀ q ∈ vecSub (matVec d.A (seg sol d.vstart d.vlen)) d.lb, |q| ≤ EPSILON) ∧
    (∀ d ∈ c1.prog_.decls, d.kind = DeclKind.ineqC →
      ∀ i < (matVec d.A (seg sol d.vstart d.vlen)).length,
        d.lb.getD i 0 - EPSILON ≤ (matVec d.A (seg sol d.vstart d.vlen)).getD i 0 ∧
        (matVec d.A (seg sol d.vstart d.vlen)).getD i 0 ≤ d.ub.getD i 0 + EPSILON) := by
  rcases control_ok_cases rs input solver out c 0 c1 o1 hok with
    ⟨_, h0, _, _⟩ | ⟨hv, hcase⟩
  · exact absurd h0 (by omega)
  rcases hcase with ⟨_, h0, _, _⟩ | ⟨_, _, h0, _, _⟩ |
    ⟨sol', _, hs, heq, hineq, _, hc1, _, _, _⟩
  · exact absurd h0 (by omega)
  · exact absurd h0 (by omega)
  rw [hsol] at hs
  obtain rfl : sol = sol' := Option.some.inj hs
  have hprog : c1.prog_ = (cycleCtrl rs input c).prog_ := by rw [hc1]; rfl
  constructor
  · intro d hd hk q hq
    simp only [eqChecksPass, List.all_eq_true] at heq
    have hdf : d ∈ (cycleCtrl rs input c).prog_.linear_equality_constraints := by
      simp only [Prog.linear_equality_constraints, List.mem_filter, beq_iff_eq]
      exact ⟨hprog ▸ hd, hk⟩
    have hz := heq d hdf
    simp only [vecIsZero, List.all_eq_true, decide_eq_true_eq] at hz
    exact hz q hq
  · intro d hd hk i hi
    simp only [ineqChecksPass, List.all_eq_true] at hineq
    have hdf : d ∈ (cycleCtrl rs input c).prog_.linear_constraints := by
      simp only [Prog.linear_constraints, List.mem_filter, beq_iff_eq]
      exact ⟨hprog ▸ hd, hk⟩
    have hz := hineq d hdf
    simp only [List.all_eq_true, Bool.and_eq_true, decide_eq_true_eq] at hz
    exact hz i (List.mem_range.2 hi)

/-- Witness for C8: the first residual component of the dynamics
equality constraint of the concrete successful cycle is within
tolerance at the zero solution. -/
theorem constraint_satisfaction_on_success_w :
    |(vecSub (matVec ((ctrlAfter (Control rs0 input0 solver0 out0 qp0) qp0).prog_.decls.headD
        ⟨DeclKind.eqC, [], [], [], "", 0, 0⟩).A
      (seg (zeroVec 6)
        ((ctrlAfter (Control rs0 input0 solver0 out0 qp0) qp0).prog_.decls.headD
          ⟨DeclKind.eqC, [], [], [], "", 0, 0⟩).vstart
        ((ctrlAfter (Control rs0 input0 solver0 out0 qp0) qp0).prog_.decls.headD
          ⟨DeclKind.eqC, [], [], [], "", 0, 0⟩).vlen))
      ((ctrlAfter (Control rs0 input0 solver0 out0 qp0) qp0).prog_.decls.headD
        ⟨DeclKind.eqC, [], [], [], "", 0, 0⟩).lb).getD 0 0| ≤ EPSILON :=
  (constraint_satisfaction_on_success rs0 input0 solver0 out0 qp0 (zeroVec 6)
    (ctrlAfter (Control rs0 input0 solver0 out0 qp0) qp0)
    (outAfter (Control rs0 input0 solver0 out0 qp0) out0)
    (by with_unfolding_all rfl) rfl).1
    ((ctrlAfter (Control rs0 input0 solver0 out0 qp0) qp0).prog_.decls.headD
      ⟨DeclKind.eqC, [], [], [], "", 0, 0⟩)
    (by with_unfolding_all decide)
    (by with_unfolding_all rfl)
    _
    (by with_unfolding_all decide)

/-! ### C7 -/

theorem vecAdd_assoc (a b c : Vec) : vecAdd (vecAdd a b) c = vecAdd a (vecAdd b c) := by
  induction a generalizing b c with
  | nil => simp [vecAdd]
  | cons x xs ih =>
      cases b with
      | nil => simp [vecAdd]
      | cons y ys =>
          cases c with
          | nil => simp [vecAdd]
          | cons z zs =>
              simp only [vecAdd, List.zipWith_cons_cons] at ih ⊢
              rw [add_assoc]
              exact congrArg _ (ih ys zs)

theorem vecAdd_zero_right (a : Vec) (n : Nat) (h : a.length = n) :
    vecAdd a (zeroVec n) = a := by
  induction a generalizing n with
  | nil => cases n <;> rfl
  | cons x xs ih =>
      cases n with
      | zero => simp at h
      | succ m =>
          simp only [List.length_cons, Nat.succ.injEq] at h
          simp only [vecAdd, zeroVec, List.replicate, List.zipWith_cons_cons, add_zero]
          rw [show List.zipWith (fun x y => x + y) xs (List.replicate m 0) =
            vecAdd xs (zeroVec m) from rfl, ih m h]

theorem length_vecAdd (a b : Vec) : (vecAdd a b).length = min a.length b.length :=
  List.length_zipWith _ _ _

theorem vecAdd_take (a b : Vec) (n : Nat) :
    (vecAdd a b).take n = vecAdd (a.take n) (b.take n) := by
  induction a generalizing b n with
  | nil => simp [vecAdd]
  | cons x xs ih =>
      cases b with
      | nil => simp [vecAdd]
      | cons y ys =>
          cases n with
          | zero => rfl
          | succ m =>
              simp only [vecAdd, List.zipWith_cons_cons, List.take_succ_cons]
              exact congrArg _ (ih ys m)

theorem vecAdd_drop (a b : Vec) (n : Nat) :
    (vecAdd a b).drop n = vecAdd (a.drop n) (b.drop n) := by
  induction a generalizing b n with
  | nil => simp [vecAdd]
  | cons x xs ih =>
      cases b with
      | nil => simp [vecAdd]
      | cons y ys =>
          cases n with
          | zero => rfl
          | succ m =>
              simp only [vecAdd, List.zipWith_cons_cons, List.drop_succ_cons]
              exact ih ys m

theorem length_wrenchAboutCom (com : Vec) (rc : ResolvedContact)
    (hw : rc.equivalent_wrench.length = 6) : (wrenchAboutCom com rc).length = 6 := by
  simp only [wrenchAboutCom, List.length_append, length_vecAdd, List.length_take,
    List.length_drop, crossV, hw]
  rfl

/-- The fold step of the net-wrench loop adds exactly the claim-side
contribution of the contact. -/
theorem addContactWrench_spec (com net : Vec) (rc : ResolvedContact)
    (hn : net.length = 6) (hw : rc.equivalent_wrench.length = 6) :
    addContactWrench com net rc = vecAdd net (wrenchAboutCom com rc) := by
  show vecAdd ((vecAdd net rc.equivalent_wrench).take 3)
      (crossV (vecSub rc.reference_point com) (seg rc.equivalent_wrench 3 3)) ++
    (vecAdd net rc.equivalent_wrench).drop 3 =
    vecAdd net (wrenchAboutCom com rc)
  unfold wrenchAboutCom
  rw [vecAdd_take, vecAdd_drop, vecAdd_assoc]
  conv_rhs => rw [show net = net.take 3 ++ net.drop 3 from (List.take_append_drop 3 net).symm]
  rw [show vecAdd (net.take 3 ++ net.drop 3)
      (vecAdd (rc.equivalent_wrench.take 3)
        (crossV (vecSub rc.reference_point com) (seg rc.equivalent_wrench 3 3)) ++
        rc.equivalent_wrench.drop 3) =
    List.zipWith (fun x y => x + y) (net.take 3 ++ net.drop 3)
      (vecAdd (rc.equivalent_wrench.take 3)
        (crossV (vecSub rc.reference_point com) (seg rc.equivalent_wrench 3 3)) ++
        rc.equivalent_wrench.drop 3) from rfl]
  rw [List.zipWith_append]
  · rfl
  · simp only [List.length_take, length_vecAdd, crossV, hn, hw]
    rfl

/-- The net-wrench fold equals the gravity wrench plus the claim-side
sum of per-contact contributions. -/
theorem foldl_addContactWrench (com : Vec) (l : List ResolvedContact) (net0 : Vec)
    (hn : net0.length = 6) (hl : ∀ rc ∈ l, rc.equivalent_wrench.length = 6) :
    l.foldl (addContactWrench com) net0 =
      vecAdd net0 ((l.map (wrenchAboutCom com)).foldr vecAdd (zeroVec 6)) := by
  induction l generalizing net0 with
  | nil =>
      simp only [List.foldl_nil, List.map_nil, List.foldr_nil]
      exact (vecAdd_zero_right net0 6 hn).symm
  | cons rc rest ih =>
      have hwrc : rc.equivalent_wrench.length = 6 := hl rc (List.mem_cons_self rc rest)
      simp only [List.foldl_cons, List.map_cons, List.foldr_cons]
      rw [addContactWrench_spec com net0 rc hn hwrc]
      rw [ih (vecAdd net0 (wrenchAboutCom com rc))
        (by rw [length_vecAdd, hn, length_wrenchAboutCom com rc hwrc]; exact min_self 6)
        (fun x hx => hl x (List.mem_cons_of_mem rc hx))]
      exact vecAdd_assoc net0 (wrenchAboutCom com rc) _

/-- Every resolved contact the result parser builds has a 6-dimensional
equivalent wrench when the provider's wrench maps have 6 rows. -/
theorem buildResolved_wrench_len (pf bv : Vec) (cs : List ContactInformation) (bi pfi : Nat)
    (hw : ∀ ci ∈ cs, ci.wrenchMatrix.length = 6) :
    ∀ rc ∈ buildResolved pf bv cs bi pfi, rc.equivalent_wrench.length = 6 := by
  induction cs generalizing bi pfi with
  | nil => intro rc hrc; simp [buildResolved] at hrc
  | cons ci rest ih =>
      intro rc hrc
      simp only [buildResolved, List.mem_cons] at hrc
      rcases hrc with h | h
      · rw [h]
        simp only [matVec, List.length_map]
        exact hw ci (List.mem_cons_self ci rest)
      · exact ih (bi + ci.num_basis) (pfi + 3 * ci.num_contact_points)
          (fun x hx => hw x (List.mem_cons_of_mem ci hx)) rc h

/-- C7: on every successful solve, the claim-side net external wrench —
gravity wrench plus all resolved contact equivalent wrenches with each
moment recombined about the center of mass — matches the rate of change
of centroidal momentum (`centroidal momentum matrix · vd` plus its
`Jdot v` term) within `EPSILON` in every component. -/
theorem wrench_balance_on_success (rs : HumanoidStatus) (input : QPInput) (solver : Solver)
    (out : QPOutput) (c : QPController) (sol : Vec) (c1 : QPController) (o1 : QPOutput)
    (hok : Control rs input solver out c = Except.ok (0, c1, o1))
    (hsol : solver.solve (cycleCtrl rs input c).prog_ = some sol)
    (hg : rs.robot.a_grav.length = 6)
    (hw : ∀ ci ∈ input.contact_info, ci.wrenchMatrix.length = 6) :
    ∀ q ∈ vecSub (netWrenchSpec rs o1)
      (vecAdd (matVec rs.centroidal_momentum_matrix o1.vd)
        rs.centroidal_momentum_matrix_dot_times_v), |q| ≤ EPSILON := by
  rcases control_ok_cases rs input solver out c 0 c1 o1 hok with
    ⟨_, h0, _, _⟩ | ⟨hv, hcase⟩
  · exact absurd h0 (by omega)
  rcases hcase with ⟨_, h0, _, _⟩ | ⟨_, _, h0, _, _⟩ |
    ⟨sol', _, hs, _, _, hwb, _, ho1, _, _⟩
  · exact absurd h0 (by omega)
  · exact absurd h0 (by omega)
  rw [hsol] at hs
  obtain rfl : sol = sol' := Option.some.inj hs
  simp only [wrenchCheckPass] at hwb
  have hres : (solvedOut rs input c sol out).resolved_contacts =
      buildResolved (matVec (solvedCtrl rs input c sol).basis_to_force_matrix_
        (seg sol (solvedCtrl rs input c sol).num_vd_ (solvedCtrl rs input c sol).num_basis_))
        (seg sol (solvedCtrl rs input c sol).num_vd_ (solvedCtrl rs input c sol).num_basis_)
        input.contact_info 0 0 := rfl
  have hlen : ∀ rc ∈ (solvedOut rs input c sol out).resolved_contacts,
      rc.equivalent_wrench.length = 6 := by
    rw [hres]
    exact buildResolved_wrench_len _ _ input.contact_info 0 0 hw
  rw [foldl_addContactWrench rs.com (solvedOut rs input c sol out).resolved_contacts
    (vecScale rs.robot.mass rs.robot.a_grav)
    (by simp only [vecScale, List.length_map, hg]) hlen] at hwb
  rw [show vecAdd (vecScale rs.robot.mass rs.robot.a_grav)
      (((solvedOut rs input c sol out).resolved_contacts.map
        (wrenchAboutCom rs.com)).foldr vecAdd (zeroVec 6)) =
    netWrenchSpec rs (solvedOut rs input c sol out) from rfl] at hwb
  simp only [vecIsZero, List.all_eq_true, decide_eq_true_eq] at hwb
  intro q hq
  rw [ho1] at hq
  exact hwb q hq

/-- Witness for C7: the first component of the wrench-balance residual
of the concrete successful contact-free cycle is within tolerance. -/
theorem wrench_balance_on_success_w :
    |(vecSub (netWrenchSpec rs0 (outAfter (Control rs0 input0 solver0 out0 qp0) out0))
      (vecAdd (matVec rs0.centroidal_momentum_matrix
        (outAfter (Control rs0 input0 solver0 out0 qp0) out0).vd)
        rs0.centroidal_momentum_matrix_dot_times_v)).getD 0 0| ≤ EPSILON :=
  wrench_balance_on_success rs0 input0 solver0 out0 qp0 (zeroVec 6)
    (ctrlAfter (Control rs0 input0 solver0 out0 qp0) qp0)
    (outAfter (Control rs0 input0 solver0 out0 qp0) out0)
    (by with_unfolding_all rfl) rfl (by decide) (by decide)
    _
    (by with_unfolding_all decide)

end QPID
